import Mathlib

/-!
Verification development for the MDG UBO tool.

Shallow embedding of the core of the repository:
  * `src/importer/ownership_resolve_online.py` — share-text parser and the
    recursive ownership-graph resolver (`resolve_tree_online` with its nested
    `walk_cz_company` / `walk_foreign` / `_emit_owners_and_recurse`);
  * `src/app.py` — the effective-share aggregator (`compute_effective_persons`)
    and the UBO classifier (the `submitted` block around lines 1241–1272).

Modelling conventions:
  * Python `float` is idealised as `ℚ` (exact rational arithmetic).
  * Python strings are modelled as `List Char` (`Str` below); each regular
    expression of the source is hand-compiled to an explicit scanner that
    mirrors the leftmost, greedy, non-overlapping semantics of `re.finditer`
    / `re.search` / `re.match` on the pattern in question (patterns quoted in
    the doc comments).  The scanners are specialised enough that greedy
    matching and maximal-munch coincide; this is noted where it matters.
  * `extract_current_owners` (module `importer.ares_vr_extract`) is not part
    of the sources; the registry gateway is therefore modelled at its
    documented boundary: a `Client` maps a normalised identifier directly to
    an already-extracted record (error text, id, name, owner list) or to a
    raised exception (`AresVrClient.get_vr` raises `RuntimeError` once its
    retries are exhausted; HTTP 400/404 and JSON failures come back as a
    payload whose `_error` field is set).
-/

namespace UBO

/-- Python strings are modelled as explicit character lists. -/
abbrev Str := List Char

/-- Whitespace class of Python's `\s` (ASCII part; the texts involved contain
no exotic Unicode whitespace). -/
def isWsCh (c : Char) : Bool :=
  c = ' ' || c = '\t' || c = '\n' || c = '\r' || c = '\x0b' || c = '\x0c'

/-- Case folding used for the `re.IGNORECASE` patterns: ASCII letters plus the
single non-ASCII letter appearing in an ignore-case pattern (`efektivně`). -/
def lowerCh (c : Char) : Char :=
  if 'A' ≤ c ∧ c ≤ 'Z' then Char.ofNat (c.toNat + 32)
  else if c = 'Ě' then 'ě'
  else c

/-- Model of `.upper()` of Python on the (ASCII) type tags used by manual overrides. -/
def upperCh (c : Char) : Char :=
  if 'a' ≤ c ∧ c ≤ 'z' then Char.ofNat (c.toNat - 32) else c

def lowerStr (s : Str) : Str := s.map lowerCh

def upperStr (s : Str) : Str := s.map upperCh

/-- Drop leading whitespace (`\s*`, and Python's `str.strip` on the left). -/
def dropWs (s : Str) : Str := s.dropWhile isWsCh

/-- Python's `str.strip()`. -/
def trimWs (s : Str) : Str := ((dropWs s.reverse).reverse).dropWhile isWsCh

/-- Match `\s+`: at least one whitespace character, consumed greedily. -/
def stripWs1 (s : Str) : Option Str :=
  match s with
  | c :: cs => if isWsCh c then some (dropWs cs) else none
  | [] => none

/-- Case-insensitive literal matcher: consume `pat` (given folded) from the
head of `s`. -/
def stripCI : Str → Str → Option Str
  | [], s => some s
  | _ :: _, [] => none
  | p :: ps, c :: cs => if lowerCh c = p then stripCI ps cs else none

/-- Maximal run of ASCII digits (`\d+` with greedy matching). -/
def takeDigits : Str → Str × Str
  | [] => ([], [])
  | c :: cs =>
    if c.isDigit then
      let r := takeDigits cs
      (c :: r.1, r.2)
    else ([], c :: cs)

/-- Numeric value of a digit string. -/
def digitsVal (ds : Str) : ℕ := ds.foldl (fun a c => a * 10 + (c.toNat - 48)) 0

/-- Match the number pattern `\d+(?:[.,;]\d+)?` at the head of `s` and return
its value as computed by `_to_float` (which rewrites `,`/`;` to `.` before
`float`).  Greedy matching and maximal-munch agree on this pattern because
the characters that may legally follow it (whitespace, `%`, letters) are not
digits. -/
def takeNumber (s : Str) : Option (ℚ × Str) :=
  match takeDigits s with
  | ([], _) => none
  | (ds, r) =>
    match r with
    | sep :: r2 =>
      if sep = '.' ∨ sep = ',' ∨ sep = ';' then
        match takeDigits r2 with
        | ([], _) => some ((digitsVal ds : ℚ), sep :: r2)
        | (fs, r3) => some ((digitsVal ds : ℚ) + (digitsVal fs : ℚ) / (10 : ℚ) ^ fs.length, r3)
      else some ((digitsVal ds : ℚ), sep :: r2)
    | [] => some ((digitsVal ds : ℚ), [])

/-- Model of `\s*:\s*` — optional whitespace, a colon, optional whitespace. -/
def tryColon (s : Str) : Option Str :=
  match dropWs s with
  | ':' :: r => some (dropWs r)
  | _ => none

/-- The two-word ignore-case keys `obchodni[_ ]?podil` and
`hlasovaci[_ ]?prava`: first literal, an optional `_` or space, second
literal.  (If the optional separator is consumed and the second literal then
fails, the regex backtrack also fails, because the second literal never starts
with `_` or a space.) -/
def tryKeyCI (key1 key2 : Str) (s : Str) : Option Str :=
  (stripCI key1 s).bind fun s1 =>
    let s2 := match s1 with
      | c :: cs => if c = '_' ∨ c = ' ' then cs else s1
      | [] => s1
    stripCI key2 s2

def kObchodni : Str := "obchodni".data
def kPodil : Str := "podil".data
def kHlasovaci : Str := "hlasovaci".data
def kPrava : Str := "prava".data
def kProcenta : Str := "procenta".data
def kSplaceno : Str := "splaceno".data
def kZlomek : Str := "zlomek".data
def kText : Str := "text".data
def kEfektivne : Str := "efektivně".data

/-- Model of `(\d+)\s*[/;]\s*(\d+)` with the separators restricted by `seps`; returns
the two captured numerators. -/
def tryFracCore (seps : List Char) (s : Str) : Option ((ℕ × ℕ) × Str) :=
  match takeDigits s with
  | ([], _) => none
  | (a, r1) =>
    match dropWs r1 with
    | sep :: r3 =>
      if seps.contains sep then
        match takeDigits (dropWs r3) with
        | ([], _) => none
        | (b, r4) => some ((digitsVal a, digitsVal b), r4)
      else none
    | [] => none

/-- Model of `OBCHODNI_PODIL_FRAC_RE = obchodni[_ ]?podil\s*:\s*(\d+)\s*[/;]\s*(\d+)`
(IGNORECASE), matched at the head of `s`. -/
def tryObchodniFrac (s : Str) : Option ((ℕ × ℕ) × Str) :=
  (tryKeyCI kObchodni kPodil s).bind fun s1 =>
  (tryColon s1).bind fun s2 =>
  tryFracCore ['/', ';'] s2

/-- Model of `(?:%|PROCENTA)` (IGNORECASE where applicable). -/
def tryPctUnit (s : Str) : Option Str :=
  match s with
  | '%' :: r => some r
  | _ => stripCI kProcenta s

/-- Model of `OBCHODNI_PODIL_PCT_RE = obchodni[_ ]?podil\s*:\s*(\d+(?:[.,;]\d+)?)\s*(?:%|PROCENTA)`
(IGNORECASE). -/
def tryObchodniPct (s : Str) : Option (ℚ × Str) :=
  (tryKeyCI kObchodni kPodil s).bind fun s1 =>
  (tryColon s1).bind fun s2 =>
  (takeNumber s2).bind fun vr =>
  (tryPctUnit (dropWs vr.2)).map fun r => (vr.1, r)

/-- Model of `HLASOVACI_PRAVA_PCT_RE = hlasovaci[_ ]?prava\s*:\s*(\d+(?:[.,;]\d+)?)\s*(?:%|PROCENTA)`
(IGNORECASE). -/
def tryHlasovaciPct (s : Str) : Option (ℚ × Str) :=
  (tryKeyCI kHlasovaci kPrava s).bind fun s1 =>
  (tryColon s1).bind fun s2 =>
  (takeNumber s2).bind fun vr =>
  (tryPctUnit (dropWs vr.2)).map fun r => (vr.1, r)

/-- Model of `FRAC_SLASH_RE = (\d+)\s*/\s*(\d+)`. -/
def tryFracSlash (s : Str) : Option ((ℕ × ℕ) × Str) := tryFracCore ['/'] s

/-- Model of `FRAC_SEMI_RE = (\d+)\s*;\s*(\d+)\s*(ZLOMEK|TEXT)?` (IGNORECASE).  The
trailing `\s*` is consumed greedily; the optional keyword extends the match
when present. -/
def tryFracSemi (s : Str) : Option ((ℕ × ℕ) × Str) :=
  (tryFracCore [';'] s).map fun abr =>
    let r5 := dropWs abr.2
    match stripCI kZlomek r5 with
    | some r6 => (abr.1, r6)
    | none =>
      match stripCI kText r5 with
      | some r6 => (abr.1, r6)
      | none => (abr.1, r5)

/-- Model of `PCT_RE = (\d+(?:[.,;]\d+)?)\s*%`. -/
def tryPct (s : Str) : Option (ℚ × Str) :=
  (takeNumber s).bind fun vr =>
    match dropWs vr.2 with
    | '%' :: r2 => some (vr.1, r2)
    | _ => none

/-- Model of `PROCENTA_RE = (\d+(?:[.,;]\d+)?)\s*PROCENTA` (IGNORECASE). -/
def tryProcenta (s : Str) : Option (ℚ × Str) :=
  (takeNumber s).bind fun vr =>
  (stripCI kProcenta (dropWs vr.2)).map fun r => (vr.1, r)

/-- Model of `EFEKTIVNE_RE = efektivně\s+(\d+(?:[.,;]\d+)?)\s*%` (IGNORECASE). -/
def tryEfektivne (s : Str) : Option (ℚ × Str) :=
  (stripCI kEfektivne s).bind fun s1 =>
  (stripWs1 s1).bind fun s2 =>
  (takeNumber s2).bind fun vr =>
    match dropWs vr.2 with
    | '%' :: r2 => some (vr.1, r2)
    | _ => none

/-- Model of `re.finditer`: scan left to right, collecting non-overlapping matches,
resuming after each match; positions with no match advance by one character.
All the patterns above match at least one character, so fuel `s.length + 1`
is always sufficient. -/
def scanAll {α : Type} (tryM : Str → Option (α × Str)) : ℕ → Str → List α
  | 0, _ => []
  | _ + 1, [] => []
  | f + 1, c :: rest =>
    match tryM (c :: rest) with
    | some (a, r) => a :: scanAll tryM f r
    | none => scanAll tryM f rest

/-- Model of `re.search`: value of the first (leftmost) match, if any. -/
def searchFirst {α : Type} (tryM : Str → Option (α × Str)) : Str → Option α
  | [] => none
  | c :: rest =>
    match tryM (c :: rest) with
    | some (a, _) => some a
    | none => searchFirst tryM rest

/-- Model of `SPLACENO_FIELD_RE = splaceno\s*:\s*\d+(?:[.,;]\d+)?\s*PROCENTA`
(IGNORECASE), matched at the head of `s`; returns the rest after the match. -/
def trySplaceno (s : Str) : Option Str :=
  (stripCI kSplaceno s).bind fun s1 =>
  (tryColon s1).bind fun s2 =>
  (takeNumber s2).bind fun vr =>
  stripCI kProcenta (dropWs vr.2)

/-- Model of `SPLACENO_FIELD_RE.sub("", s)`: delete every (leftmost, non-overlapping)
occurrence. -/
def splacenoSub : ℕ → Str → Str
  | 0, s => s
  | _ + 1, [] => []
  | f + 1, c :: cs =>
    match trySplaceno (c :: cs) with
    | some r => splacenoSub f r
    | none => c :: splacenoSub f cs

/-- Python's binary `min` (returns the first argument on ties). -/
def pymin (a b : ℚ) : ℚ := if b < a then b else a

/-- Python's binary `max` (returns the first argument on ties). -/
def pymax (a b : ℚ) : ℚ := if a < b then b else a

/-- Clamp to `[0, 1]`: `max(0.0, min(1.0, x))`. -/
def clamp01 (x : ℚ) : ℚ := pymax 0 (pymin 1 x)

/-- Sum of the fraction occurrences `a/b`, skipping `b = 0` as the source does
(`if a is not None and b and b != 0`). -/
def sumFracs (l : List (ℕ × ℕ)) : ℚ :=
  l.foldl (fun acc ab => if ab.2 ≠ 0 then acc + (ab.1 : ℚ) / (ab.2 : ℚ) else acc) 0

/-- Does some fraction occurrence have a non-zero denominator (the tier's
`found` flag)? -/
def fracsFound (l : List (ℕ × ℕ)) : Bool := l.any fun ab => ab.2 ≠ 0

/-- Sum of percentage occurrences, each divided by 100. -/
def sumPcts (l : List ℚ) : ℚ := l.foldl (fun acc v => acc + v / 100) 0

/-- Tier 1 of `parse_pct_from_text`: every `obchodni_podil` occurrence,
fraction form and percentage form, summed. -/
def pctTier1 (s : Str) : Option ℚ :=
  let fr := scanAll tryObchodniFrac (s.length + 1) s
  let pc := scanAll tryObchodniPct (s.length + 1) s
  if fracsFound fr || !pc.isEmpty then
    some (clamp01 (sumFracs fr + sumPcts pc))
  else none

/-- Tier 2: every explicit `hlasovaci_prava` percentage occurrence, summed. -/
def pctTier2 (s : Str) : Option ℚ :=
  let hv := scanAll tryHlasovaciPct (s.length + 1) s
  if !hv.isEmpty then some (clamp01 (sumPcts hv)) else none

/-- Tier 3: every generic fraction occurrence (`a/b` and `a;b`), summed. -/
def pctTier3 (s : Str) : Option ℚ :=
  let fs := scanAll tryFracSlash (s.length + 1) s
  let ss := scanAll tryFracSemi (s.length + 1) s
  if fracsFound fs || fracsFound ss then
    some (clamp01 (sumFracs fs + sumFracs ss))
  else none

/-- Tier 4: every generic percentage occurrence (`X %`, `X PROCENTA`), summed. -/
def pctTier4 (s : Str) : Option ℚ :=
  let ps := scanAll tryPct (s.length + 1) s
  let pr := scanAll tryProcenta (s.length + 1) s
  if !ps.isEmpty || !pr.isEmpty then
    some (clamp01 (sumPcts ps + sumPcts pr))
  else none

/-- Model of `parse_pct_from_text` (identical in `ownership_resolve_online.py` lines
46–111 and `app.py` lines 250–301): strip, delete `splaceno: … PROCENTA`
fields, then try the four encodings in order, returning the clamped sum of
all occurrences of the first tier that matches. -/
def parse_pct_from_text (s0 : Str) : Option ℚ :=
  let s1 := trimWs s0
  if s1 = [] then none
  else
    let s := splacenoSub (s1.length + 1) s1
    let fr := scanAll tryObchodniFrac (s.length + 1) s
    let pc := scanAll tryObchodniPct (s.length + 1) s
    if fracsFound fr || !pc.isEmpty then some (clamp01 (sumFracs fr + sumPcts pc))
    else
      let hv := scanAll tryHlasovaciPct (s.length + 1) s
      if !hv.isEmpty then some (clamp01 (sumPcts hv))
      else
        let fs := scanAll tryFracSlash (s.length + 1) s
        let ss := scanAll tryFracSemi (s.length + 1) s
        if fracsFound fs || fracsFound ss then some (clamp01 (sumFracs fs + sumFracs ss))
        else
          let ps := scanAll tryPct (s.length + 1) s
          let pr := scanAll tryProcenta (s.length + 1) s
          if !ps.isEmpty || !pr.isEmpty then some (clamp01 (sumPcts ps + sumPcts pr))
          else none

/-- Model of `EFEKTIVNE_RE.search`, returning the raw captured number (used directly by
the aggregator, which divides by 100 itself). -/
def effSearch (s : Str) : Option ℚ := searchFirst tryEfektivne s

/-- Model of `parse_effective_from_text` (`ownership_resolve_online.py` lines 114–124):
find `efektivně X %` and return `clamp01 (X / 100)`. -/
def parse_effective_from_text (s0 : Str) : Option ℚ :=
  match effSearch (trimWs s0) with
  | some v => some (clamp01 (v / 100))
  | none => none

/-! ### Number formatting (Python `f"{x:.2f}"`)

The resolver and classifier interpolate shares into display texts with the
`:.2f` format.  It is modelled by exact rounding of the rational to two
decimal places (`round` is half-up where CPython's float formatting is
half-even on the underlying binary value; the difference is immaterial to
every property below, which only relies on the characters produced being
digits, `.` or `-`). -/

def digitChar (r : ℕ) : Char :=
  if r = 0 then '0' else if r = 1 then '1' else if r = 2 then '2'
  else if r = 3 then '3' else if r = 4 then '4' else if r = 5 then '5'
  else if r = 6 then '6' else if r = 7 then '7' else if r = 8 then '8' else '9'

def natStrAux : ℕ → ℕ → Str → Str
  | 0, _, acc => acc
  | f + 1, n, acc =>
    let acc2 := digitChar (n % 10) :: acc
    if n / 10 = 0 then acc2 else natStrAux f (n / 10) acc2

/-- Decimal digit string of a natural number. -/
def natStr (n : ℕ) : Str := natStrAux (n + 1) n []

/-- Model of `f"{x:.2f}"` — two decimal places, see the section comment. -/
def fmt2 (x : ℚ) : Str :=
  let n : ℤ := round (x * 100)
  let m : ℕ := n.natAbs
  let frac : ℕ := m % 100
  let digits : Str :=
    natStr (m / 100) ++ ['.'] ++ (if frac < 10 then ['0'] else []) ++ natStr frac
  if n < 0 then '-' :: digits else digits

/-! ### Data model of the resolver (`ownership_resolve_online.py`) -/

/-- Owner record (dataclass `Owner` of `importer.ares_vr_extract`, absent from
the sources; fields reconstructed from every use in
`ownership_resolve_online.py`: `kind`, `name`, `ico`, `share_pct`,
`share_raw`, `label`, matching the spec's OwnerRecord). -/
structure Owner where
  kind : Str
  name : Str
  ico : Option Str
  share_pct : Option ℚ
  share_raw : Str
  label : Str
deriving DecidableEq

/-- Model of `NodeLine` dataclass (lines 13–18). -/
structure NodeLine where
  depth : ℕ
  label : Str
  text : Str
  effective_pct : Option ℚ
deriving DecidableEq

/-- Warning dicts appended by the resolver.  The `error` kind (line 246) has
no `id` key; the `unresolved` kinds (lines 380, 483) carry one — hence the
optional field. -/
structure Warning where
  kind : Str
  id : Option Str
  ico : Str
  name : Str
  text : Str
deriving DecidableEq

/-- Result of `extract_current_owners(client.get_vr(ico))`: the error marker
`_error` (if set), the registry id and name, and the extracted owner list.
`extract_current_owners` itself is not in the sources, so the gateway is
modelled at this boundary. -/
structure Payload where
  err : Option Str
  ico : Str
  name : Str
  owners : List Owner
deriving DecidableEq

/-- The two observable outcomes of `AresVrClient.get_vr` (lines 116–180 of
`ares_vr_client.py`): a returned payload (possibly carrying `_error`, as for
HTTP 400/404 or JSON failures), or a raised `RuntimeError` once the retry
loop is exhausted (line 180). -/
inductive ClientRes
  | ret (p : Payload)
  | exn
deriving DecidableEq

abbrev Client := Str → ClientRes

/-- The exception escaping `resolve_tree_online` when a `get_vr` call raises
(`RuntimeError("ARES request failed after retries: …")`). -/
inductive GwError
  | requestFailed
deriving DecidableEq

abbrev WalkOut := List NodeLine × List Warning

/-- Manual-override entry in the "new" dict shape
`{"type": …, "id"/"ico": …, "name": …, "share": …}` (the legacy positional
tuple shape is a dynamic-typing artefact and is not modelled). -/
structure ManualItem where
  type : Str
  id : Option Str
  ico : Option Str
  name : Option Str
  share : ℚ

abbrev ManualOverrides := List (Str × List ManualItem)

/-- Model of `dict.get(k, [])`. -/
def moGet (mo : ManualOverrides) (k : Str) : List ManualItem :=
  ((mo.find? fun kv => kv.1 = k).map Prod.snd).getD []

/-- Python `str.zfill(8)`. -/
def zfill8 (s : Str) : Str := List.replicate (8 - s.length) '0' ++ s

/-- Model of `_norm_ico` (lines 132–136): keep digits, left-pad a 7-digit value, then
`zfill(8)`. -/
def normIco (x : Str) : Str :=
  let d := x.filter Char.isDigit
  let d2 := if d.length = 7 then '0' :: d else d
  zfill8 d2

/-- Truthiness of an optional string (`None` and `""` are falsy). -/
def optStrTruthy : Option Str → Bool
  | some s => !s.isEmpty
  | none => false

/-- Model of `display_name or default` (`None` and `""` fall back). -/
def orDefault (o : Option Str) (d : Str) : Str :=
  match o with
  | some s => if s = [] then d else s
  | none => d

/-- Model of `(item.get("name") or "").strip() or None`. -/
def strippedOrNone (s : Option Str) : Option Str :=
  let t := trimWs (s.getD [])
  if t = [] then none else some t

def pyFloatCore (s : Str) : Option ℚ :=
  match takeDigits s with
  | (a, r) =>
    match r with
    | [] => if a.isEmpty then none else some (digitsVal a)
    | '.' :: r2 =>
      match takeDigits r2 with
      | (b, r3) =>
        if r3.isEmpty && (!a.isEmpty || !b.isEmpty) then
          some ((digitsVal a : ℚ) + (digitsVal b : ℚ) / (10 : ℚ) ^ b.length)
        else none
    | _ => none

/-- Model of `float(sr.replace(",", ".").replace(";", "."))` of the bare-number
fallback (resolver lines 589–594), on plain decimal literals; a raising
`float` call is `none` (the source catches the exception).  Exotic accepted
forms (exponents, `inf`, `nan`) are not modelled — no call site produces
them. -/
def pyFloat (s0 : Str) : Option ℚ :=
  let s := s0.map fun c => if c = ',' ∨ c = ';' then '.' else c
  match s with
  | '-' :: r => (pyFloatCore r).map Neg.neg
  | '+' :: r => pyFloatCore r
  | r => pyFloatCore r

def lblManual : Str := "Manuálně doplněno".data

/-- Name enrichment for a manual CZ company (lines 320–328): look the company
up, and use the extracted name when the lookup returned no `_error` and a
non-empty name; any exception is swallowed (`except Exception: pass`). -/
def manualNameLookupCz (client : Client) (ico : Str) (deflt : Str) : Str :=
  match client ico with
  | .ret p => if p.err = none ∧ p.name ≠ [] then p.name else deflt
  | .exn => deflt

/-- The manual-owner list built by the loop of `walk_cz_company`
(lines 265–339, the list named `manual_owners` there).

Source slip, recorded for claim C2: the loop builds `manual_owners`, but the
merge at lines 373–375 consults `manual_owners_from_mo`, a name that is never
assigned anywhere in the function, and lines 342–371 are a stray `elif` block
(no matching `if`) that makes the module unparseable.  The embedding models
the documented behaviour (docstring lines 225–226: APPEND mode, ARES +
manual), i.e. the list below is what the loop builds and what the merge was
meant to append. -/
def manualOwnersCz (client : Client) (items : List ManualItem) : List Owner :=
  items.foldl (fun acc item =>
    let itype := upperStr (if item.type = [] then ("CZ".data) else item.type)
    let oname := strippedOrNone item.name
    let oshare := item.share
    if oshare ≤ 0 then acc
    else if itype = ("PERSON".data) then
      let pname := trimWs (item.name.getD [])
      if pname = [] then acc
      else acc ++ [⟨("PERSON".data), pname, none, some (oshare * 100),
        fmt2 (oshare * 100) ++ (" %".data), lblManual⟩]
    else if itype = ("FOREIGN".data) then
      let zid := upperStr (trimWs (item.id.getD []))
      if zid = [] then acc
      else
        let display := (oname).getD (("Zahraniční subjekt (".data) ++ zid ++ (")".data))
        acc ++ [⟨("FOREIGN".data), display, some zid, some (oshare * 100),
          fmt2 (oshare * 100) ++ (" %".data), lblManual⟩]
    else
      let icoRaw := trimWs (item.id.getD [])
      let icoClean := zfill8 (icoRaw.filter Char.isDigit)
      if icoClean.length = 8 then
        let nameF :=
          match oname with
          | some n => n
          | none => manualNameLookupCz client icoClean
              (("Společnost (IČO ".data) ++ icoClean ++ (")".data))
        acc ++ [⟨("COMPANY".data), nameF, some icoClean, some (oshare * 100),
          ("velikost:".data) ++ fmt2 (oshare * 100) ++ (" PROCENTA".data), lblManual⟩]
      else acc) []

/-- Name enrichment inside `walk_foreign` (lines 431–438): unlike the CZ
variant it extracts without checking `_error` first; an error payload is
modelled as carrying no name. -/
def foreignNameLookup (client : Client) (ico : Str) (deflt : Str) : Str :=
  match client ico with
  | .ret p => if p.name ≠ [] then p.name else deflt
  | .exn => deflt

/-- Owner list of a foreign node, built purely from the coerced manual
overrides (lines 418–479). -/
def foreignManualOwners (client : Client) (items : List ManualItem) : List Owner :=
  items.foldl (fun acc it =>
    let t := trimWs (lowerStr it.type)
    let share := it.share
    if share ≤ 0 then acc
    else if t = ("company".data) then
      let ownerIco := normIco (it.ico.getD [])
      if ownerIco = [] then acc
      else
        let deflt := orDefault it.name (("Společnost (IČO ".data) ++ ownerIco ++ (")".data))
        let nameF := foreignNameLookup client ownerIco deflt
        acc ++ [⟨("COMPANY".data), nameF, some ownerIco, some (share * 100),
          ("velikost:".data) ++ fmt2 (share * 100) ++ (" PROCENTA".data), lblManual⟩]
    else if t = ("foreign".data) then
      let fid2 := trimWs (it.id.getD [])
      if fid2 = [] then acc
      else
        let nm2 := trimWs (orDefault it.name (("Zahraniční subjekt ".data) ++ fid2))
        acc ++ [⟨("FOREIGN".data), nm2, some fid2, some (share * 100),
          ("velikost:".data) ++ fmt2 (share * 100) ++ (" PROCENTA".data), lblManual⟩]
    else if t = ("person".data) then
      let nm3 := trimWs (it.name.getD [])
      if nm3 = [] then acc
      else acc ++ [⟨("PERSON".data), nm3, none, some (share * 100),
        ("velikost:".data) ++ fmt2 (share * 100) ++ (" PROCENTA".data), lblManual⟩]
    else acc) []

/-- One entry of `_coerce_manual_overrides` (lines 180–205, dict shape). -/
def coerceItem (item : ManualItem) : Option ManualItem :=
  let t := trimWs (lowerStr item.type)
  let share := item.share
  if share ≤ 0 then none
  else if t = ("company".data) then
    if optStrTruthy item.ico then
      some ⟨("company".data), none, some (normIco (item.ico.getD [])), item.name, share⟩
    else none
  else if t = ("foreign".data) then
    if optStrTruthy item.id then
      some ⟨("foreign".data), some (trimWs (item.id.getD [])), none, item.name, share⟩
    else none
  else if t = ("person".data) then
    if optStrTruthy item.name then
      some ⟨("person".data), none, none, some (trimWs (item.name.getD [])), share⟩
    else none
  else
    if optStrTruthy item.ico then
      some ⟨("company".data), none, some (normIco (item.ico.getD [])), item.name, share⟩
    else if optStrTruthy item.id then
      some ⟨("foreign".data), some (trimWs (item.id.getD [])), none, item.name, share⟩
    else if optStrTruthy item.name then
      some ⟨("person".data), none, none, some (trimWs (item.name.getD [])), share⟩
    else none

/-- Model of `_coerce_manual_overrides` (lines 152–209). -/
def coerceMO (raw : ManualOverrides) : ManualOverrides :=
  raw.foldl (fun acc kv =>
    let key := trimWs kv.1
    if key = [] then acc
    else
      let lst := (kv.2).filterMap coerceItem
      if lst.isEmpty then acc else acc ++ [(key, lst)]) []

/-! ### `_emit_owners_and_recurse` (lines 497–631) -/

/-- Per-owner processing of `_emit_owners_and_recurse` (lines 516–631):
derive the local / effective share, emit the owner line, and recurse through
the supplied callbacks for company and foreign owners; person owners are
leaves. -/
def emitOwner (wCz : Str → ℕ → ℚ → Except GwError WalkOut)
    (wF : Str → Option Str → ℕ → ℚ → Except GwError WalkOut)
    (label : Str) (depth : ℕ) (pm : ℚ) (o : Owner) : Except GwError WalkOut :=
  let localShare0 : Option ℚ :=
    match o.share_pct with
    | some v => some (v / 100)
    | none => if !o.share_raw.isEmpty then parse_pct_from_text o.share_raw else none
  let effShare : Option ℚ := parse_effective_from_text o.share_raw
  let nextMult : ℚ :=
    match localShare0 with
    | some l => pm * l
    | none => match effShare with | some e => e | none => pm
  let pctTxt : Str :=
    match localShare0 with
    | some l => fmt2 (l * 100) ++ ("%".data)
    | none => if !o.share_raw.isEmpty then o.share_raw else ("?".data)
  let effPct : Option ℚ :=
    match localShare0 with
    | some l => some (pm * l * 100)
    | none => match effShare with | some e => some (e * 100) | none => none
  let kind := upperStr o.kind
  if kind = ("COMPANY".data) ∧ optStrTruthy o.ico = true then
    let i := o.ico.getD []
    let line : NodeLine :=
      ⟨depth + 2, label, o.name ++ (" — ".data) ++ pctTxt ++ (" (IČO ".data) ++ i ++ (")".data), effPct⟩
    match wCz i (depth + 3) nextMult with
    | .error e => .error e
    | .ok (ls, ws) => .ok (line :: ls, ws)
  else if kind = ("FOREIGN".data) ∧ optStrTruthy o.ico = true then
    let fid := trimWs (o.ico.getD [])
    let line : NodeLine :=
      ⟨depth + 2, label, o.name ++ (" — ".data) ++ pctTxt ++ (" (ID ".data) ++ fid ++ (")".data), effPct⟩
    match wF fid (some o.name) (depth + 3) nextMult with
    | .error e => .error e
    | .ok (ls, ws) => .ok (line :: ls, ws)
  else
    let localShare : Option ℚ :=
      match localShare0 with
      | some l => some l
      | none =>
        let sr := trimWs o.share_raw
        match parse_pct_from_text sr with
        | some v => some v
        | none =>
          if !sr.isEmpty then
            match pyFloat sr with
            | some v => some (clamp01 (v / 100))
            | none => none
          else none
    match localShare with
    | some l =>
      let effPct2 := pm * l * 100
      let basePct := l * 100
      .ok ([⟨depth + 2, label,
        o.name ++ (" — ".data) ++ fmt2 basePct ++ ("% (efektivně ".data) ++ fmt2 effPct2 ++ ("%)".data),
        some effPct2⟩], [])
    | none =>
      match effShare with
      | some e =>
        let baseTxt : Str :=
          match o.share_pct with
          | some p => fmt2 p ++ ("%".data)
          | none => if !o.share_raw.isEmpty then o.share_raw else ("?".data)
        .ok ([⟨depth + 2, label,
          o.name ++ (" — ".data) ++ baseTxt ++ (" (efektivně ".data) ++ fmt2 (e * 100) ++ ("%)".data),
          some (e * 100)⟩], [])
      | none =>
        let raw : Str := if !o.share_raw.isEmpty then (" — ".data) ++ o.share_raw else []
        .ok ([⟨depth + 2, label, o.name ++ raw, none⟩], [])

/-- Sequential processing of one label group's owner list; an exception from
a recursive walk propagates (Python's shared output lists are owned by the
aborted `resolve_tree_online` call, so the partial output is never seen). -/
def emitList (f : Owner → Except GwError WalkOut) : List Owner → Except GwError WalkOut
  | [] => .ok ([], [])
  | o :: rest =>
    match f o with
    | .error e => .error e
    | .ok (l1, w1) =>
      match emitList f rest with
      | .error e => .error e
      | .ok (l2, w2) => .ok (l1 ++ l2, w1 ++ w2)

/-- Model of `by_label` grouping (lines 509–511): a dict keyed by label, preserving
first-occurrence key order and per-key insertion order. -/
def groupByLabel (owners : List Owner) : List (Str × List Owner) :=
  owners.foldl (fun acc o =>
    if acc.any fun g => g.1 = o.label then
      acc.map fun g => if g.1 = o.label then (g.1, g.2 ++ [o]) else g
    else acc ++ [(o.label, [o])]) []

/-- Per-group emission (lines 513–514): a label line at `depth + 1`, then the
owners of that group. -/
def emitGroups (f : Str → Owner → Except GwError WalkOut) (depth : ℕ) :
    List (Str × List Owner) → Except GwError WalkOut
  | [] => .ok ([], [])
  | (label, lst) :: rest =>
    match emitList (f label) lst with
    | .error e => .error e
    | .ok (l1, w1) =>
      match emitGroups f depth rest with
      | .error e => .error e
      | .ok (l2, w2) => .ok ((⟨depth + 1, label, label ++ (":".data), none⟩ : NodeLine) :: l1 ++ l2, w1 ++ w2)

/-- Model of `_emit_owners_and_recurse` (lines 497–631). -/
def emit_owners_and_recurse (wCz : Str → ℕ → ℚ → Except GwError WalkOut)
    (wF : Str → Option Str → ℕ → ℚ → Except GwError WalkOut)
    (owners : List Owner) (depth : ℕ) (pm : ℚ) : Except GwError WalkOut :=
  emitGroups (fun label o => emitOwner wCz wF label depth pm o) depth (groupByLabel owners)

/-! ### The mutually recursive walks (lines 233–495) -/

inductive WTarget
  | cz (ico : Str)
  | fr (fid : Str) (displayName : Option Str)

def txtMaxDepth : Str := "⚠️ Překročena max hloubka".data

/-- The error line and warning text of a failed lookup (line 244): the
normalised id and the `_error` message interpolated into
`⚠️ Nelze načíst ARES VR pro …: …`. -/
def errText (icoN msg : Str) : Str :=
  ("⚠️ Nelze načíst ARES VR pro ".data) ++ icoN ++ (": ".data) ++ msg

def txtInvalidForeign : Str := "⚠️ Neplatný identifikátor zahraničního subjektu".data

/-- The two mutually recursive closures `walk_cz_company` (lines 233–392) and
`walk_foreign` (lines 394–495), combined into one function over a target tag.
`fuel` is a structural-recursion budget only: the source recursion is stopped
by the `depth > max_depth` guard (checked first, exactly as in the source),
and `resolve_tree_online` below supplies fuel that the guard trips before the
fuel can run out (depth grows by 3 per level). -/
def walk (client : Client) (rawMo mo : ManualOverrides) (maxD : ℕ) :
    ℕ → WTarget → ℕ → ℚ → Except GwError WalkOut
  | 0, _, depth, _ =>
    if depth > maxD then .ok ([⟨depth, [], txtMaxDepth, none⟩], [])
    else .ok ([], [])
  | f + 1, tgt, depth, pm =>
    if depth > maxD then .ok ([⟨depth, [], txtMaxDepth, none⟩], [])
    else
      match tgt with
        | .cz ico =>
          let icoN := normIco ico
          match client icoN with
          | .exn => .error .requestFailed
          | .ret p =>
            match p.err with
            | some emsg =>
              .ok ([⟨depth, [], errText icoN emsg, none⟩],
                   [⟨("error".data), none, icoN, [], errText icoN emsg⟩])
            | none =>
              let headerLine : NodeLine :=
                ⟨depth, [], p.name ++ (" (IČO ".data) ++ p.ico ++ (")".data),
                  if depth = 0 then some (pm * 100) else none⟩
              let manualOwners := manualOwnersCz client (moGet rawMo p.ico)
              let owners := p.owners ++ manualOwners
              let unresolvedW : List Warning :=
                if owners.isEmpty then
                  [⟨("unresolved".data), some p.ico, p.ico, p.name,
                    ("⚠️ Nepodařilo se dohledat vlastníka v OR pro ".data) ++ p.name ++ (" (IČO ".data) ++ p.ico ++ (")".data)⟩]
                else []
              match emit_owners_and_recurse
                  (fun i d m => walk client rawMo mo maxD f (.cz i) d m)
                  (fun i nm d m => walk client rawMo mo maxD f (.fr i nm) d m)
                  owners depth pm with
              | .error e => .error e
              | .ok (ls, ws) => .ok (headerLine :: ls, unresolvedW ++ ws)
        | .fr fid0 dn =>
          let fid := trimWs fid0
          if fid = [] then .ok ([⟨depth, [], txtInvalidForeign, none⟩], [])
          else
            let nm := trimWs (orDefault dn (("Zahraniční subjekt ".data) ++ fid))
            let headerLine : NodeLine := ⟨depth, [], nm ++ (" (ID ".data) ++ fid ++ (")".data), none⟩
            let owners := foreignManualOwners client (moGet mo fid)
            let unresolvedW : List Warning :=
              if owners.isEmpty then
                [⟨("unresolved".data), some fid, [], nm,
                  ("⚠️ Zahraniční subjekt ".data) ++ nm ++ (" (ID ".data) ++ fid ++ (") nemá zadané vlastníky – doplň ručně.".data)⟩]
              else []
            match emit_owners_and_recurse
                (fun i d m => walk client rawMo mo maxD f (.cz i) d m)
                (fun i nm2 d m => walk client rawMo mo maxD f (.fr i nm2) d m)
                owners depth pm with
            | .error e => .error e
            | .ok (ls, ws) => .ok (headerLine :: ls, unresolvedW ++ ws)

/-- Model of `walk_cz_company` in callback form. -/
def walk_cz_company (client : Client) (rawMo mo : ManualOverrides) (maxD fuel : ℕ)
    (ico : Str) (depth : ℕ) (pm : ℚ) : Except GwError WalkOut :=
  walk client rawMo mo maxD fuel (.cz ico) depth pm

/-- Model of `walk_foreign` in callback form. -/
def walk_foreign (client : Client) (rawMo mo : ManualOverrides) (maxD fuel : ℕ)
    (fid : Str) (dn : Option Str) (depth : ℕ) (pm : ℚ) : Except GwError WalkOut :=
  walk client rawMo mo maxD fuel (.fr fid dn) depth pm

/-- Model of `resolve_tree_online` (lines 212–636): coerce the overrides, then
`walk_cz_company(root_ico, depth=0, parent_multiplier=1.0)`.  The fuel
`maxDepth + 2` strictly dominates the number of nested levels the depth guard
admits (depths 0, 3, 6, … stop once they exceed `maxDepth`). -/
def resolve_tree_online (client : Client) (rootIco : Str) (maxDepth : ℕ)
    (manualOverrides : ManualOverrides) : Except GwError WalkOut :=
  walk client manualOverrides (coerceMO manualOverrides) maxDepth (maxDepth + 2) (.cz rootIco) 0 1

/-! ### The effective-share aggregator (`app.py` lines 108–393) -/

/-- Backtracking tail of `RE_COMPANY_HEADER`'s `(?P<name>.+)\s+\(` part, seen
from the reversed string just after the literal `(`: consume whitespace
characters one at a time for `\s+`; at each point the remainder may serve as
the (reversed) `.+` group if it is non-empty and newline-free (`.` does not
match a newline). -/
def headerTailOk : Str → Bool
  | [] => false
  | c :: cs =>
    isWsCh c && ((!cs.isEmpty && cs.all fun d => d ≠ '\n') || headerTailOk cs)

/-- Model of `RE_COMPANY_HEADER = ^(?P<name>.+)\s+\(IČO\s+(?P<ico>\d{7,8})\)\s*$`
(`app.py` line 150), decided on the reversed character list: trailing
whitespace, `)`, a digit run of length 7–8 (a longer run cannot match, since
the character before the chosen digits would have to be whitespace), `\s+`,
the literal `(IČO` (reversed `OČI(`), then the backtracking tail above. -/
def headerRev (r : Str) : Bool :=
  match dropWs r with
  | ')' :: r2 =>
    let dsr := takeDigits r2
    if 7 ≤ dsr.1.length ∧ dsr.1.length ≤ 8 then
      match stripWs1 dsr.2 with
      | some r4 =>
        match r4 with
        | 'O' :: 'Č' :: 'I' :: '(' :: r5 => headerTailOk r5
        | _ => false
      | none => false
    else false
  | _ => false

/-- Model of `RE_COMPANY_HEADER.match(t)` as a Boolean. -/
def isCompanyHeader (t : Str) : Bool := headerRev t.reverse

/-- Model of `ICO_IN_LINE = \(IČO\s+(?P<ico>\d{7,8})\)` (`app.py` line 151), matched at
the head of `s`. -/
def icoAt (s : Str) : Bool :=
  match s with
  | '(' :: 'I' :: 'Č' :: 'O' :: r =>
    (match stripWs1 r with
     | some r2 =>
       let dsr := takeDigits r2
       (decide (7 ≤ dsr.1.length ∧ dsr.1.length ≤ 8)) &&
         (match dsr.2 with | ')' :: _ => true | _ => false)
     | none => false)
  | _ => false

/-- Model of `ICO_IN_LINE.search(t) is not None`. -/
def icoSearch : Str → Bool
  | [] => false
  | c :: r => icoAt (c :: r) || icoSearch r

/-- Model of `DASH_SPLIT = \s+[—–-]\s+` (`app.py` line 152), matched at the head of
`s`: a maximal whitespace run (backtracking cannot help: a shorter run leaves
a whitespace character where the dash is required), one of the three dashes,
then at least one whitespace character. -/
def tryDash (s : Str) : Bool :=
  match stripWs1 s with
  | some r =>
    match r with
    | d :: r2 =>
      (d = '—' || d = '–' || d = '-') && (match r2 with | c :: _ => isWsCh c | [] => false)
    | [] => false
  | none => false

/-- Model of `DASH_SPLIT.split(t, maxsplit=1)[0]`: the prefix before the first
`DASH_SPLIT` match (the whole string when there is none). -/
def dashSplitFirst : Str → Str
  | [] => []
  | c :: r => if tryDash (c :: r) then [] else c :: dashSplitFirst r

/-- One diagnostic entry of `debug_paths` (`app.py` lines 381–388). -/
structure PathDbg where
  parent_depth : ℕ
  parent_mult : ℚ
  local_share : Option ℚ
  eff : Option ℚ
  source : Str
  text : Str
deriving DecidableEq

/-- Per-person aggregate (`{"ownership": …, "voting": …, "debug_paths": …}`). -/
structure PersonAgg where
  ownership : ℚ
  voting : ℚ
  debug_paths : List PathDbg
deriving DecidableEq

/-- Traversal state of `compute_effective_persons`: the depth-keyed stack
(top of the Python list modelled as the head), the pending next-header
multiplier, and the persons dict (an insertion-ordered association list). -/
structure AggSt where
  header_stack : List (ℕ × ℚ)
  pending : Option ℚ
  persons : List (Str × PersonAgg)

def alookup {α : Type} (k : Str) (l : List (Str × α)) : Option α :=
  (l.find? fun kv => kv.1 = k).map Prod.snd

/-- Model of `d[k] = v` on an insertion-ordered dict: replace the entry of `k` in
place, or append a new one. -/
def upsert {α : Type} (k : Str) (v : α) : List (Str × α) → List (Str × α)
  | [] => [(k, v)]
  | p :: rest => if p.1 = k then (k, v) :: rest else p :: upsert k v rest

/-- Company-line text parsing of the aggregator (`app.py` lines 349–355):
`parse_pct_from_text`, falling back to an `efektivně X %` annotation divided
by the enclosing multiplier. -/
def aggTextLocal (t : Str) (parentMult : ℚ) : Option ℚ :=
  match parse_pct_from_text t with
  | some v => some v
  | none =>
    match effSearch t with
    | some v => if parentMult > 0 then some ((v / 100) / parentMult) else none
    | none => none

/-- One iteration of the `for ln in _ensure_list(lines)` loop of
`compute_effective_persons` (`app.py` lines 310–388). -/
def aggStep (st : AggSt) (ln : NodeLine) : AggSt :=
  let depth := ln.depth
  let t := ln.text
  if t = [] then st
  else if isCompanyHeader t then
    let stack := st.header_stack.dropWhile fun hd => hd.1 ≥ depth
    let parentMult := (stack.head?.map Prod.snd).getD 1
    let thisMult := st.pending.getD parentMult
    ⟨(depth, thisMult) :: stack, none, st.persons⟩
  else if t.getLast? = some ':' then st
  else
    let name := trimWs (dashSplitFirst t)
    let isComp := icoSearch t
    let expected := depth - 2
    let stack := st.header_stack.dropWhile fun hd => hd.1 > expected
    let parentMult := (stack.head?.map Prod.snd).getD 1
    let parentDepth := (stack.head?.map Prod.fst).getD 0
    let nodeEff : Option ℚ := ln.effective_pct.map (· / 100)
    if isComp then
      let localShare : Option ℚ :=
        match nodeEff with
        | some ne => if parentMult > 0 then some (ne / parentMult) else aggTextLocal t parentMult
        | none => aggTextLocal t parentMult
      ⟨stack, localShare.map fun l => parentMult * l, st.persons⟩
    else
      let entry := (alookup name st.persons).getD ⟨0, 0, []⟩
      let lse : Option ℚ × Option ℚ × Str :=
        match nodeEff with
        | some ne => (none, some ne, ("node_eff(person)".data))
        | none =>
          match parse_pct_from_text t with
          | some ls => (some ls, some (parentMult * ls), ("text(person)".data))
          | none =>
            match effSearch t with
            | some v => (none, some (v / 100), ("efektivně_text(person)".data))
            | none => (none, none, ("unknown".data))
      let dbg : PathDbg := ⟨parentDepth, parentMult, lse.1, lse.2.1, lse.2.2, t⟩
      let entry2 : PersonAgg :=
        match lse.2.1 with
        | some e => ⟨entry.ownership + e, entry.voting + e, entry.debug_paths ++ [dbg]⟩
        | none => ⟨entry.ownership, entry.voting, entry.debug_paths ++ [dbg]⟩
      ⟨stack, st.pending, upsert name entry2 st.persons⟩

/-- Model of `compute_effective_persons` (`app.py` lines 304–393): fold the line
sequence through `aggStep`, then clamp every total to `[0, 1]` once. -/
def clampEntry (e : PersonAgg) : PersonAgg :=
  ⟨clamp01 e.ownership, clamp01 e.voting, e.debug_paths⟩

def compute_effective_persons (lines : List NodeLine) : List (Str × PersonAgg) :=
  let st := lines.foldl aggStep ⟨[], none, []⟩
  st.persons.map fun kv => (kv.1, clampEntry kv.2)

/-! ### The UBO classifier (`app.py`, the `submitted` block, lines 1241–1272) -/

/-- Model of `fmt_pct` (`app.py` lines 395–398). -/
def fmt_pct (x : Option ℚ) : Str :=
  match x with
  | none => "—".data
  | some v => fmt2 (v * 100) ++ ("%".data)

/-- The per-person record assembled into `final_persons`
(`app.py` lines 1204–1220). -/
structure FinalPersonVals where
  cap : ℚ
  vote : ℚ
  veto : Bool
  org_majority : Bool
  substitute_ubo : Bool
deriving DecidableEq

/-- Output of the classification block: the `ubo` dict, the `reasons` dict,
and the coalition's summed voting fraction. -/
structure ClassifyResult where
  ubo : List (Str × FinalPersonVals)
  reasons : List (Str × List Str)
  block_total : ℚ
deriving DecidableEq

/-- Model of `add_reason` (`app.py` lines 1246–1247): `reasons.setdefault(n, []).append(r)`
on an insertion-ordered dict. -/
def addReason : List (Str × List Str) → Str → Str → List (Str × List Str)
  | [], n, r => [(n, [r])]
  | p :: rest, n, r => if p.1 = n then (p.1, p.2 ++ [r]) :: rest else p :: addReason rest n r

def reasonCap (cap threshold_pct : ℚ) : Str :=
  ("podíl na kapitálu ".data) ++ fmt_pct (some cap) ++ (" > ".data) ++ fmt2 threshold_pct ++ ("%".data)

def reasonVote (vote threshold_pct : ℚ) : Str :=
  ("hlasovací práva ".data) ++ fmt_pct (some vote) ++ (" > ".data) ++ fmt2 threshold_pct ++ ("%".data)

def reasonVeto : Str := "právo veta → rozhodující vliv".data

def reasonOrgMajority : Str := "jmenuje/odvolává většinu orgánu → rozhodující vliv".data

def reasonSubstitute : Str := "náhradní skutečný majitel (§ 5 ZESM)".data

/-- The coalition-specific reason string
(`f"účast ve voting blocku „{block_name}“ s {fmt_pct(block_total)} > {threshold_pct:.2f}%"`). -/
def reasonCoalition (block_name : Str) (block_total threshold_pct : ℚ) : Str :=
  ("účast ve voting blocku „".data) ++ block_name ++ ("“ s ".data) ++
    fmt_pct (some block_total) ++ (" > ".data) ++ fmt2 threshold_pct ++ ("%".data)

/-- The per-person rule evaluation (`app.py` lines 1249–1266): the five rules
are evaluated independently (logical OR), each appending its reason. -/
def classifyPerson (thr threshold_pct : ℚ)
    (acc : List (Str × FinalPersonVals) × List (Str × List Str))
    (p : Str × FinalPersonVals) :
    List (Str × FinalPersonVals) × List (Str × List Str) :=
  let n := p.1
  let vals := p.2
  let s1 : Bool × List (Str × List Str) :=
    if vals.cap > thr then (true, addReason acc.2 n (reasonCap vals.cap threshold_pct))
    else (false, acc.2)
  let s2 : Bool × List (Str × List Str) :=
    if vals.vote > thr then (true, addReason s1.2 n (reasonVote vals.vote threshold_pct)) else s1
  let s3 : Bool × List (Str × List Str) :=
    if vals.veto then (true, addReason s2.2 n reasonVeto) else s2
  let s4 : Bool × List (Str × List Str) :=
    if vals.org_majority then (true, addReason s3.2 n reasonOrgMajority) else s3
  let s5 : Bool × List (Str × List Str) :=
    if vals.substitute_ubo then (true, addReason s4.2 n reasonSubstitute) else s4
  (if s5.1 then upsert n vals acc.1 else acc.1, s5.2)

/-- Model of `block_total` (`app.py` line 1241): the coalition's summed voting
fraction over the named members, `0.0` for members absent from
`final_persons`. -/
def blockTotal (final_persons : List (Str × FinalPersonVals)) (block_members : List Str) : ℚ :=
  if block_members.isEmpty then 0
  else block_members.foldl
    (fun a n => a + ((alookup n final_persons).map FinalPersonVals.vote).getD 0) 0

/-- One step of the coalition loop (`app.py` lines 1269–1272): members absent
from `final_persons` are skipped; present members are (re-)inserted into the
UBO dict and receive the coalition reason `R`. -/
def coalitionStep (final_persons : List (Str × FinalPersonVals)) (R : Str)
    (acc : List (Str × FinalPersonVals) × List (Str × List Str)) (n : Str) :
    List (Str × FinalPersonVals) × List (Str × List Str) :=
  match alookup n final_persons with
  | some vals => (upsert n vals acc.1, addReason acc.2 n R)
  | none => acc

/-- The classification block (`app.py` lines 1241–1272): compute the
coalition's summed voting fraction, apply the five per-person rules, then —
when the coalition is non-empty and its sum strictly exceeds the threshold —
add every named member present in `final_persons` to the UBO set with the
coalition reason. -/
def classify (final_persons : List (Str × FinalPersonVals)) (threshold_pct : ℚ)
    (block_members : List Str) (block_name : Str) : ClassifyResult :=
  let block_total : ℚ := blockTotal final_persons block_members
  let thr := threshold_pct / 100
  let st := final_persons.foldl (classifyPerson thr threshold_pct) ([], [])
  if !block_members.isEmpty ∧ block_total > thr then
    let final := block_members.foldl
      (coalitionStep final_persons (reasonCoalition block_name block_total threshold_pct)) st
    ⟨final.1, final.2, block_total⟩
  else ⟨st.1, st.2, block_total⟩

/-! ### Concrete registries used by the claim theorems -/

/-- Cyclic registry: company `00000001` owns 50 % of `00000002` and vice
versa. -/
def cycClient : Client := fun i =>
  if i = ("00000001".data) then
    .ret ⟨none, ("00000001".data), ("A s.r.o.".data),
      [⟨("COMPANY".data), ("B s.r.o.".data), some ("00000002".data), some 50, [], ("Společníci".data)⟩]⟩
  else if i = ("00000002".data) then
    .ret ⟨none, ("00000002".data), ("B s.r.o.".data),
      [⟨("COMPANY".data), ("A s.r.o.".data), some ("00000001".data), some 50, [], ("Společníci".data)⟩]⟩
  else .ret ⟨some ("ARES HTTP 404".data), i, [], []⟩

/-- Registry with one discovered person owner for the root. -/
def c2client : Client := fun i =>
  if i = ("11111111".data) then
    .ret ⟨none, ("11111111".data), ("Root s.r.o.".data),
      [⟨("PERSON".data), ("Alena Nová".data), none, some 50, ("50 %".data), ("Společníci".data)⟩]⟩
  else .ret ⟨some ("ARES HTTP 404".data), i, [], []⟩

/-- One valid manual person override under the root's id. -/
def c2mo : ManualOverrides :=
  [(("11111111".data), [⟨("person".data), none, none, some ("Jan Novák".data), 1 / 2⟩])]

def c7rootPayload : Payload :=
  ⟨none, ("11111111".data), ("Root s.r.o.".data),
    [⟨("COMPANY".data), ("Dcera s.r.o.".data), some ("22222222".data), some 50, [], ("Společníci".data)⟩]⟩

/-- Root resolves cleanly; every other lookup raises (retries exhausted). -/
def c7client : Client := fun i =>
  if i = ("11111111".data) then .ret c7rootPayload else .exn

/-- Root with a failing first child (error payload) and a healthy second
child owning one person. -/
def c7sibClient : Client := fun i =>
  if i = ("11111111".data) then
    .ret ⟨none, ("11111111".data), ("Root s.r.o.".data),
      [⟨("COMPANY".data), ("Vadná s.r.o.".data), some ("22222222".data), some 30, [], ("Společníci".data)⟩,
       ⟨("COMPANY".data), ("Zdravá s.r.o.".data), some ("33333333".data), some 70, [], ("Společníci".data)⟩]⟩
  else if i = ("33333333".data) then
    .ret ⟨none, ("33333333".data), ("Zdravá s.r.o.".data),
      [⟨("PERSON".data), ("Petr Novák".data), none, some 100, [], ("Společníci".data)⟩]⟩
  else .ret ⟨some ("ARES HTTP 404".data), i, [], []⟩

def c7errPayload : Payload := ⟨some ("ARES HTTP 404".data), ("99999999".data), [], []⟩

/-- Every lookup returns an error payload. -/
def c7errClient : Client := fun _ => .ret c7errPayload

/-- Every lookup raises. -/
def c7exnClient : Client := fun _ => .exn

/-- Coalition demo persons: `A` votes 0.10, `B` votes 0.20. -/
def c6persons : List (Str × FinalPersonVals) :=
  [(("A".data), ⟨0, 1 / 10, false, false, false⟩), (("B".data), ⟨0, 2 / 10, false, false, false⟩)]

/-- Two independent branches (two sibling companies of the root), each
leading to the same person; the person lines carry pre-computed effective
percentages `c1·100` and `c2·100`. -/
def twoBranchLines (c1 c2 : ℚ) : List NodeLine :=
  [⟨0, [], ("Root s.r.o. (IČO 11111111)".data), some 100⟩,
   ⟨1, ("Společníci".data), ("Společníci:".data), none⟩,
   ⟨2, ("Společníci".data), ("A s.r.o. — 50.00% (IČO 22222222)".data), some 50⟩,
   ⟨3, [], ("A s.r.o. (IČO 22222222)".data), none⟩,
   ⟨4, ("Společníci".data), ("Společníci:".data), none⟩,
   ⟨5, ("Společníci".data), ("Petr Novák — 40.00% (efektivně 20.00%)".data), some (c1 * 100)⟩,
   ⟨2, ("Společníci".data), ("B s.r.o. — 50.00% (IČO 33333333)".data), some 50⟩,
   ⟨3, [], ("B s.r.o. (IČO 33333333)".data), none⟩,
   ⟨4, ("Společníci".data), ("Společníci:".data), none⟩,
   ⟨5, ("Společníci".data), ("Petr Novák — 40.00% (efektivně 20.00%)".data), some (c2 * 100)⟩]

def c10entry : PersonAgg :=
  ⟨1 / 2, 1 / 2, [⟨0, 1, some (1 / 2), some (1 / 2), ("text(person)".data), ("Jan — 50 %".data)⟩]⟩

/-- C1 counterexample registry — the spec §8 fixture: the root is owned 60 %
by a company, whose sole person owner carries only the raw annotation
`efektivně 40 %` (no numeric share field). -/
def c1client : Client := fun i =>
  if i = ("11111111".data) then
    .ret ⟨none, ("11111111".data), ("Root s.r.o.".data),
      [⟨("COMPANY".data), ("Mid s.r.o.".data), some ("22222222".data), some 60, [], ("Společníci".data)⟩]⟩
  else if i = ("22222222".data) then
    .ret ⟨none, ("22222222".data), ("Mid s.r.o.".data),
      [⟨("PERSON".data), ("Jana Malá".data), none, none, ("efektivně 40 %".data), ("Společníci".data)⟩]⟩
  else .ret ⟨some ("ARES HTTP 404".data), i, [], []⟩

/-- Two-level registry with symbolic local shares: an intermediate company
holds `f1` of the root, a leaf person holds `f2` of the intermediate
(share fields in percent, as the registry reports them). -/
def c3client (f1 f2 : ℚ) : Client := fun i =>
  if i = ("11111111".data) then
    .ret ⟨none, ("11111111".data), ("Root s.r.o.".data),
      [⟨("COMPANY".data), ("Mid s.r.o.".data), some ("22222222".data), some (f1 * 100), [], ("Společníci".data)⟩]⟩
  else if i = ("22222222".data) then
    .ret ⟨none, ("22222222".data), ("Mid s.r.o.".data),
      [⟨("PERSON".data), ("Petr Novák".data), none, some (f2 * 100), [], ("Společníci".data)⟩]⟩
  else .ret ⟨some ("ARES HTTP 404".data), i, [], []⟩

/-- The company-owner line text the resolver emits for the intermediate. -/
def c3t2 (f1 : ℚ) : Str :=
  ("Mid s.r.o.".data) ++ (" — ".data) ++ (fmt2 (f1 * 100 / 100 * 100) ++ ("%".data)) ++
    (" (IČO ".data) ++ ("22222222".data) ++ (")".data)

/-- The person line text the resolver emits for the leaf. -/
def c3t5 (f1 f2 : ℚ) : Str :=
  ("Petr Novák".data) ++ (" — ".data) ++ fmt2 (f2 * 100 / 100 * 100) ++ ("% (efektivně ".data) ++
    fmt2 (1 * (f1 * 100 / 100) * (f2 * 100 / 100) * 100) ++ ("%)".data)

/-- The six-line sequence the resolver produces for the two-level chain. -/
def c3lines (f1 f2 : ℚ) : List NodeLine :=
  [⟨0, [], ("Root s.r.o. (IČO 11111111)".data), some (1 * 100)⟩,
   ⟨1, ("Společníci".data), ("Společníci:".data), none⟩,
   ⟨2, ("Společníci".data), c3t2 f1, some (1 * (f1 * 100 / 100) * 100)⟩,
   ⟨3, [], ("Mid s.r.o. (IČO 22222222)".data), none⟩,
   ⟨4, ("Společníci".data), ("Společníci:".data), none⟩,
   ⟨5, ("Společníci".data), c3t5 f1 f2, some (1 * (f1 * 100 / 100) * (f2 * 100 / 100) * 100)⟩]

/-! ### Shared helper lemmas -/

theorem pymin_eq_min (a b : ℚ) : pymin a b = min a b := by
  simp only [pymin, min_def]
  by_cases h : b < a
  · simp [h, not_le_of_lt h]
  · simp [h, le_of_not_lt h]

theorem pymax_eq_max (a b : ℚ) : pymax a b = max a b := by
  simp only [pymax, max_def]
  by_cases h : a < b
  · simp [h, h.le]
  · by_cases h2 : a ≤ b
    · have hab : a = b := le_antisymm h2 (le_of_not_lt h)
      simp [h, h2, hab]
    · simp [h, h2]

theorem clamp01_eq (x : ℚ) : clamp01 x = max 0 (min 1 x) := by
  rw [clamp01, pymin_eq_min, pymax_eq_max]

theorem digitChar_isDigit (r : ℕ) : (digitChar r).isDigit = true := by
  unfold digitChar
  repeat' split
  all_goals decide

theorem natStrAux_chars {c : Char} :
    ∀ f n acc, c ∈ natStrAux f n acc → c.isDigit = true ∨ c ∈ acc := by
  intro f
  induction f with
  | zero => intro n acc h; exact Or.inr h
  | succ f ih =>
    intro n acc h
    simp only [natStrAux] at h
    by_cases h10 : n / 10 = 0
    · simp only [h10, if_pos] at h
      rcases List.mem_cons.mp h with h | h
      · exact Or.inl (h ▸ digitChar_isDigit _)
      · exact Or.inr h
    · simp only [h10, if_neg, not_false_iff] at h
      rcases ih (n / 10) (digitChar (n % 10) :: acc) h with h | h
      · exact Or.inl h
      · rcases List.mem_cons.mp h with h | h
        · exact Or.inl (h ▸ digitChar_isDigit _)
        · exact Or.inr h

theorem natStr_chars {c : Char} {n : ℕ} (h : c ∈ natStr n) : c.isDigit = true := by
  rcases natStrAux_chars _ _ _ h with h | h
  · exact h
  · simp at h

theorem fmt2_chars {c : Char} {x : ℚ} (h : c ∈ fmt2 x) :
    c.isDigit = true ∨ c = '.' ∨ c = '-' := by
  unfold fmt2 at h
  set n : ℤ := round (x * 100) with hn
  have core : ∀ d ∈ natStr (n.natAbs / 100) ++ ['.'] ++
      (if n.natAbs % 100 < 10 then ['0'] else []) ++ natStr (n.natAbs % 100),
      d.isDigit = true ∨ d = '.' ∨ d = '-' := by
    intro d hd
    simp only [List.append_assoc, List.mem_append] at hd
    rcases hd with hd | hd | hd | hd
    · exact Or.inl (natStr_chars hd)
    · simp at hd; exact Or.inr (Or.inl hd)
    · split at hd
      · simp at hd; subst hd; exact Or.inl (by decide)
      · simp at hd
    · exact Or.inl (natStr_chars hd)
  by_cases hneg : n < 0
  · simp only [hneg, if_pos] at h
    rcases List.mem_cons.mp h with h | h
    · exact Or.inr (Or.inr h)
    · exact core _ h
  · simp only [hneg, if_neg, not_false_iff] at h
    exact core _ h

theorem clamp01_nonneg (x : ℚ) : 0 ≤ clamp01 x := by
  rw [clamp01_eq]; exact le_max_left 0 _

theorem clamp01_le_one (x : ℚ) : clamp01 x ≤ 1 := by
  rw [clamp01_eq]
  exact max_le zero_le_one (min_le_left 1 x)

theorem clamp01_of_bounds {x : ℚ} (h0 : 0 ≤ x) (h1 : x ≤ 1) : clamp01 x = x := by
  rw [clamp01_eq, min_eq_right h1, max_eq_right h0]

theorem alookup_nil {α : Type} (n : Str) : alookup n ([] : List (Str × α)) = none := rfl

theorem alookup_cons {α : Type} (n : Str) (p : Str × α) (l : List (Str × α)) :
    alookup n (p :: l) = if p.1 = n then some p.2 else alookup n l := by
  simp only [alookup, List.find?]
  by_cases h : p.1 = n
  · simp [h]
  · simp [h]

theorem alookup_map_val {α β : Type} (f : α → β) (n : Str) (l : List (Str × α)) :
    alookup n (l.map fun kv => (kv.1, f kv.2)) = (alookup n l).map f := by
  induction l with
  | nil => rfl
  | cons kv rest ih =>
    simp only [List.map_cons, alookup_cons]
    by_cases h : kv.1 = n
    · simp [h]
    · simp [h, ih]

theorem alookup_upsert {α : Type} (m n : Str) (w : α) (l : List (Str × α)) :
    alookup n (upsert m w l) = if n = m then some w else alookup n l := by
  induction l with
  | nil =>
    by_cases h : n = m
    · subst h; simp [upsert, alookup_cons]
    · have h2 : ¬ m = n := fun hh => h hh.symm
      simp [upsert, alookup_cons, alookup_nil, h, h2]
  | cons kv rest ih =>
    by_cases hk : kv.1 = m
    · by_cases h : n = m
      · subst h; simp [upsert, hk, alookup_cons]
      · have h2 : ¬ m = n := fun hh => h hh.symm
        have h3 : ¬ kv.1 = n := hk ▸ h2
        simp [upsert, hk, alookup_cons, h, h2, h3]
    · by_cases h : n = m
      · subst h
        simp [upsert, hk, alookup_cons, ih]
      · by_cases hkn : kv.1 = n
        · simp [upsert, hk, alookup_cons, hkn, h]
        · simp [upsert, hk, alookup_cons, hkn, ih, h]

theorem alookup_addReason (m n : Str) (r : Str) (rs : List (Str × List Str)) :
    alookup n (addReason rs m r) =
      if n = m then some (((alookup m rs).getD []) ++ [r]) else alookup n rs := by
  induction rs with
  | nil =>
    by_cases h : n = m
    · subst h; simp [addReason, alookup_cons, alookup_nil]
    · have h2 : ¬ m = n := fun hh => h hh.symm
      simp [addReason, alookup_cons, alookup_nil, h, h2]
  | cons kv rest ih =>
    by_cases hk : kv.1 = m
    · by_cases h : n = m
      · subst h; simp [addReason, hk, alookup_cons]
      · have h2 : ¬ m = n := fun hh => h hh.symm
        have h3 : ¬ kv.1 = n := hk ▸ h2
        simp [addReason, hk, alookup_cons, h, h2, h3]
    · by_cases h : n = m
      · subst h
        simp [addReason, hk, alookup_cons, ih]
      · by_cases hkn : kv.1 = n
        · simp [addReason, hk, alookup_cons, hkn, h]
        · simp [addReason, hk, alookup_cons, hkn, ih, h]

theorem parse_pct_ne_nil {s : Str} {v : ℚ} (h : parse_pct_from_text s = some v) : s ≠ [] := by
  intro hs
  subst hs
  simp [parse_pct_from_text, trimWs, dropWs] at h

/-! ### Claim theorems -/

/-- C9: `parse_pct_from_text` tries its four encodings in strict priority
order — explicit `obchodni_podil` (business-share) fields, then explicit
`hlasovaci_prava` (voting-rights) fields, then generic fractions, then
generic percentages — summing all occurrences within the first tier that
matches (each `pctTierN` is the clamped sum over every occurrence of that
tier) and never consulting a lower tier once one matched; and parsing
`"business-share: 1/3"` yields exactly `1/3` (well within the claimed
`1e-9`). -/
theorem C9_parser_tier_priority :
    (∀ s : Str, parse_pct_from_text s =
      if trimWs s = [] then none
      else
        (pctTier1 (splacenoSub ((trimWs s).length + 1) (trimWs s))).orElse fun _ =>
          (pctTier2 (splacenoSub ((trimWs s).length + 1) (trimWs s))).orElse fun _ =>
            (pctTier3 (splacenoSub ((trimWs s).length + 1) (trimWs s))).orElse fun _ =>
              pctTier4 (splacenoSub ((trimWs s).length + 1) (trimWs s))) ∧
    parse_pct_from_text ("business-share: 1/3".data) = some (1 / 3) := by
  constructor
  · intro s
    by_cases h : trimWs s = []
    · simp [parse_pct_from_text, h]
    · simp only [parse_pct_from_text, h, if_neg, not_false_iff, pctTier1, pctTier2, pctTier3,
        pctTier4]
      split
      · rfl
      · split
        · rfl
        · split
          · rfl
          · split <;> rfl
  · with_unfolding_all decide

/-- C8: (a)/(b) whenever a branch is entered at depth `d > maxDepth`, both
walks emit exactly one depth-limit line at that depth, record no warning and
perform no further work — for any fuel, client, override store and
multiplier; (c) on a cyclic two-company registry (each company owning 50 % of
the other) with `maxDepth = 4`, the traversal terminates with 7 lines, of
which exactly one is the depth-limit line, sitting at the offending depth 6
(the total function `walk` terminates on every input by construction; the
depth guard is what stops the cyclic re-expansion). -/
theorem C8_depth_limit :
    (∀ (client : Client) (rawMo mo : ManualOverrides) (maxD fuel : ℕ) (ico : Str)
       (depth : ℕ) (pm : ℚ), depth > maxD →
       walk_cz_company client rawMo mo maxD fuel ico depth pm =
         .ok ([⟨depth, [], txtMaxDepth, none⟩], [])) ∧
    (∀ (client : Client) (rawMo mo : ManualOverrides) (maxD fuel : ℕ) (fid : Str)
       (dn : Option Str) (depth : ℕ) (pm : ℚ), depth > maxD →
       walk_foreign client rawMo mo maxD fuel fid dn depth pm =
         .ok ([⟨depth, [], txtMaxDepth, none⟩], [])) ∧
    ((resolve_tree_online cycClient ("00000001".data) 4 []).map (fun r =>
        (r.1.length, (r.1.filter fun l => l.text = txtMaxDepth).length,
         r.1.getLast?.map NodeLine.depth)) =
      .ok (7, 1, some 6)) := by
  refine ⟨?_, ?_, ?_⟩
  · intro client rawMo mo maxD fuel ico depth pm h
    cases fuel <;> simp [walk_cz_company, walk, h]
  · intro client rawMo mo maxD fuel fid dn depth pm h
    cases fuel <;> simp [walk_foreign, walk, h]
  · with_unfolding_all rfl

/-- C8 witness: at depth 7 with `maxDepth = 4` (and fuel 3), the CZ walk
emits the single depth-limit line. -/
theorem C8_depth_limit_witness :
    (7 : ℕ) > 4 ∧
    walk_cz_company cycClient [] [] 4 3 ("00000001".data) 7 1 =
      .ok ([⟨7, [], txtMaxDepth, none⟩], []) :=
  ⟨by decide, C8_depth_limit.1 cycClient [] [] 4 3 ("00000001".data) 7 1 (by decide)⟩

/-- C2 (code bug, intended model): under the documented APPEND semantics
(docstring lines 225–226, `Režim je APPEND (ARES + manuál)`), an entity with
one discovered owner and one valid manual override yields two owner lines
(lines at the owner depth 2), never one — five lines in total: header, two
label lines, two owner lines.  The source itself cannot execute this merge:
the loop builds `manual_owners` but line 374 tests `manual_owners_from_mo`,
a name never assigned, and the stray `elif` block at lines 342–371 is a
syntax error. -/
theorem C2_manual_append_model :
    (resolve_tree_online c2client ("11111111".data) 25 c2mo).map (fun r =>
        ((r.1.filter fun l => l.depth = 2).length, r.1.length)) = .ok (2, 5) := by
  with_unfolding_all rfl

/-- C7 counterexample: the claim says the resolve call propagates an
exception only when the root identifier is unusable; here the root lookup
succeeds with a clean payload, yet the whole call fails with the gateway
exception because the lookup of the depth-3 child raises (retries
exhausted). -/
theorem C7_counterexample :
    resolve_tree_online c7client ("11111111".data) 25 [] = .error .requestFailed ∧
    c7client (normIco ("11111111".data)) = .ret c7rootPayload ∧
    c7rootPayload.err = none := by
  refine ⟨?_, ?_, rfl⟩
  · with_unfolding_all rfl
  · with_unfolding_all decide

/-- C7 amended: (a) a lookup failure returned by the gateway as an error
payload terminates only the affected branch — exactly one error line and one
error warning, at any depth within bound; (b) but a lookup that raises
(retries exhausted) aborts the entire walk with the exception, at any depth,
not only at the root; (c) sibling branches are unaffected by an
error-payload failure: with a failing first child and a healthy second
child, the resolve call still returns, the failing branch contributes
exactly its error line, and the sibling's subtree is fully resolved (depths
`[0, 1, 2, 3, 2, 3, 4, 5]`, one warning). -/
theorem C7_lookup_failure :
    (∀ (client : Client) (rawMo mo : ManualOverrides) (maxD f : ℕ) (ico : Str)
       (depth : ℕ) (pm : ℚ) (p : Payload) (msg : Str),
       depth ≤ maxD → client (normIco ico) = .ret p → p.err = some msg →
       walk_cz_company client rawMo mo maxD (f + 1) ico depth pm =
         .ok ([⟨depth, [], errText (normIco ico) msg, none⟩],
              [⟨("error".data), none, normIco ico, [], errText (normIco ico) msg⟩])) ∧
    (∀ (client : Client) (rawMo mo : ManualOverrides) (maxD f : ℕ) (ico : Str)
       (depth : ℕ) (pm : ℚ),
       depth ≤ maxD → client (normIco ico) = .exn →
       walk_cz_company client rawMo mo maxD (f + 1) ico depth pm = .error .requestFailed) ∧
    ((resolve_tree_online c7sibClient ("11111111".data) 25 []).map (fun r =>
        (r.1.map NodeLine.depth,
         (r.1.filter fun l => l.text = errText ("22222222".data) ("ARES HTTP 404".data)).length,
         r.2.length)) =
      .ok ([0, 1, 2, 3, 2, 3, 4, 5], 1, 1)) := by
  refine ⟨?_, ?_, ?_⟩
  · intro client rawMo mo maxD f ico depth pm p msg hd hc he
    simp [walk_cz_company, walk, Nat.not_lt.mpr hd, hc, he]
  · intro client rawMo mo maxD f ico depth pm hd hc
    simp [walk_cz_company, walk, Nat.not_lt.mpr hd, hc]
  · with_unfolding_all rfl

/-- C7 witness: concrete discharge of both universal parts — an
error-payload lookup at depth 3 produces exactly the one error line and one
warning; an exception-raising lookup at depth 3 aborts the walk. -/
theorem C7_lookup_failure_witness :
    ((3 : ℕ) ≤ 25 ∧ c7errClient (normIco ("99999999".data)) = .ret c7errPayload ∧
      c7errPayload.err = some ("ARES HTTP 404".data) ∧
      walk_cz_company c7errClient [] [] 25 4 ("99999999".data) 3 (1 / 2) =
        .ok ([⟨3, [], errText (normIco ("99999999".data)) ("ARES HTTP 404".data), none⟩],
             [⟨("error".data), none, normIco ("99999999".data), [],
               errText (normIco ("99999999".data)) ("ARES HTTP 404".data)⟩])) ∧
    ((3 : ℕ) ≤ 25 ∧ c7exnClient (normIco ("99999999".data)) = .exn ∧
      walk_cz_company c7exnClient [] [] 25 4 ("99999999".data) 3 (1 / 2) =
        .error .requestFailed) :=
  ⟨⟨by decide, by with_unfolding_all decide, by decide,
      C7_lookup_failure.1 c7errClient [] [] 25 3 ("99999999".data) 3 (1 / 2) c7errPayload
        ("ARES HTTP 404".data) (by decide) (by with_unfolding_all decide) (by decide)⟩,
   ⟨by decide, by with_unfolding_all decide,
      C7_lookup_failure.2.1 c7exnClient [] [] 25 3 ("99999999".data) 3 (1 / 2)
        (by decide) (by with_unfolding_all decide)⟩⟩

/-- The capital-rule and voting-rule reason strings are never equal, whatever
the interpolated fractions: the former starts with the letter p of `podíl`,
the latter with the h of `hlasovací`. -/
theorem reasonCap_ne_reasonVote (c v tp : ℚ) :
    reasonCap c tp ≠ reasonVote v tp := by
  intro h
  have h2 : (reasonCap c tp).head? = (reasonVote v tp).head? := congrArg List.head? h
  rw [show (reasonCap c tp).head? = some ('p' : Char) from rfl,
      show (reasonVote v tp).head? = some ('h' : Char) from rfl] at h2
  exact absurd (Option.some.inj h2) (by decide)

/-- C5: the classifier's quantitative rules are strict inequalities, each
rule separately (`app.py` lines 1255–1258).  For a person with no
veto/majority/substitute flag and no coalition: the capital-rule reason is
recorded iff the capital fraction is strictly greater than the threshold,
the voting-rule reason is recorded iff the voting fraction is strictly
greater than the threshold, and membership in the UBO set holds iff at
least one of the two strict comparisons holds; both fractions exactly at
the threshold do not qualify, while threshold plus any positive `ε`
qualifies through the capital rule alone and through the voting rule
alone. -/
theorem C5_strict_threshold (n bn : Str) (cap vote threshold_pct : ℚ) :
    (reasonCap cap threshold_pct ∈
        (alookup n (classify [(n, ⟨cap, vote, false, false, false⟩)]
          threshold_pct [] bn).reasons).getD [] ↔ cap > threshold_pct / 100) ∧
    (reasonVote vote threshold_pct ∈
        (alookup n (classify [(n, ⟨cap, vote, false, false, false⟩)]
          threshold_pct [] bn).reasons).getD [] ↔ vote > threshold_pct / 100) ∧
    ((alookup n (classify [(n, ⟨cap, vote, false, false, false⟩)]
          threshold_pct [] bn).ubo).isSome
        ↔ (cap > threshold_pct / 100 ∨ vote > threshold_pct / 100)) ∧
    (cap = threshold_pct / 100 → vote = threshold_pct / 100 →
      alookup n (classify [(n, ⟨cap, vote, false, false, false⟩)]
        threshold_pct [] bn).ubo = none) ∧
    (∀ ε : ℚ, 0 < ε →
      (alookup n (classify [(n, ⟨threshold_pct / 100 + ε, vote, false, false, false⟩)]
          threshold_pct [] bn).ubo).isSome ∧
      (alookup n (classify [(n, ⟨cap, threshold_pct / 100 + ε, false, false, false⟩)]
          threshold_pct [] bn).ubo).isSome) := by
  have hne : reasonCap cap threshold_pct ≠ reasonVote vote threshold_pct :=
    reasonCap_ne_reasonVote cap vote threshold_pct
  have hne2 : reasonVote vote threshold_pct ≠ reasonCap cap threshold_pct :=
    fun h => hne h.symm
  refine ⟨?_, ?_, ?_, ?_, ?_⟩
  · by_cases hc : cap > threshold_pct / 100 <;> by_cases hv : vote > threshold_pct / 100 <;>
      simp [classify, classifyPerson, blockTotal, hc, hv, addReason, upsert,
        alookup_cons, alookup_nil, hne, hne2]
  · by_cases hc : cap > threshold_pct / 100 <;> by_cases hv : vote > threshold_pct / 100 <;>
      simp [classify, classifyPerson, blockTotal, hc, hv, addReason, upsert,
        alookup_cons, alookup_nil, hne, hne2]
  · by_cases hc : cap > threshold_pct / 100 <;> by_cases hv : vote > threshold_pct / 100 <;>
      simp [classify, classifyPerson, blockTotal, hc, hv, addReason, upsert,
        alookup_cons, alookup_nil]
  · intro hceq hveq
    have hc : ¬ cap > threshold_pct / 100 := by rw [hceq]; exact lt_irrefl _
    have hv : ¬ vote > threshold_pct / 100 := by rw [hveq]; exact lt_irrefl _
    simp [classify, classifyPerson, blockTotal, hc, hv, alookup_nil]
  · intro ε hε
    have hc : threshold_pct / 100 + ε > threshold_pct / 100 := lt_add_of_pos_right _ hε
    constructor
    · by_cases hv : vote > threshold_pct / 100 <;>
        simp [classify, classifyPerson, blockTotal, hc, hv, addReason, upsert, alookup_cons]
    · by_cases hcap : cap > threshold_pct / 100 <;>
        simp [classify, classifyPerson, blockTotal, hc, hcap, addReason, upsert, alookup_cons]

/-- C5 witness: with threshold 25 %, capital and voting fractions of exactly
`1/4` do not qualify; `1/4 + 1/1000` qualifies through the capital rule
alone and through the voting rule alone; and a 30 % voting fraction records
the voting-rule reason string. -/
theorem C5_strict_threshold_witness :
    alookup ("A".data) (classify [(("A".data), ⟨25 / 100, 25 / 100, false, false, false⟩)]
        25 [] ("B".data)).ubo = none ∧
    (alookup ("A".data) (classify [(("A".data), ⟨25 / 100 + 1 / 1000, 0, false, false, false⟩)]
        25 [] ("B".data)).ubo).isSome ∧
    (alookup ("A".data) (classify [(("A".data), ⟨0, 25 / 100 + 1 / 1000, false, false, false⟩)]
        25 [] ("B".data)).ubo).isSome ∧
    reasonVote (30 / 100) 25 ∈
      (alookup ("A".data) (classify [(("A".data), ⟨0, 30 / 100, false, false, false⟩)]
        25 [] ("B".data)).reasons).getD [] := by
  have h := C5_strict_threshold ("A".data) ("B".data) (25 / 100) (25 / 100) 25
  have h0 := C5_strict_threshold ("A".data) ("B".data) 0 0 25
  have h3 := C5_strict_threshold ("A".data) ("B".data) 0 (30 / 100) 25
  exact ⟨h.2.2.2.1 rfl rfl,
         (h0.2.2.2.2 (1 / 1000) (by norm_num)).1,
         (h0.2.2.2.2 (1 / 1000) (by norm_num)).2,
         h3.2.1.mpr (by norm_num)⟩

/-- Preservation half of the aggregator invariant: one `aggStep` keeps
"ownership equals voting" true of every stored person entry, because the
person branch adds the same contribution to both running totals. -/
theorem aggStep_inv (st : AggSt) (ln : NodeLine)
    (h : ∀ n e, alookup n st.persons = some e → e.ownership = e.voting) :
    ∀ n e, alookup n (aggStep st ln).persons = some e → e.ownership = e.voting := by
  intro n e hl
  simp only [aggStep] at hl
  split at hl
  · exact h n e hl
  · split at hl
    · exact h n e hl
    · split at hl
      · exact h n e hl
      · split at hl
        · exact h n e hl
        · rw [alookup_upsert] at hl
          split at hl
          · have he := (Option.some.inj hl).symm
            subst he
            split
            · cases halt : alookup (trimWs (dashSplitFirst ln.text)) st.persons with
              | none => simp [halt]
              | some e0 => simp [halt, h _ e0 halt]
            · cases halt : alookup (trimWs (dashSplitFirst ln.text)) st.persons with
              | none => simp [halt]
              | some e0 => simp [halt, h _ e0 halt]
          · exact h n e hl

theorem aggFold_inv :
    ∀ (ls : List NodeLine) (st : AggSt),
      (∀ n e, alookup n st.persons = some e → e.ownership = e.voting) →
      ∀ n e, alookup n ((ls.foldl aggStep st).persons) = some e → e.ownership = e.voting := by
  intro ls
  induction ls with
  | nil => intro st h; exact h
  | cons l rest ih => intro st h; exact ih (aggStep st l) (aggStep_inv st l h)

/-- C10: the aggregator assigns every person identical ownership and voting
fractions — each per-line contribution is added to both running totals, so
in every aggregate it produces, `ownership = voting` (any divergence can
only come from the classifier's later user-entered overrides). -/
theorem C10_ownership_eq_voting (lines : List NodeLine) (n : Str) (e : PersonAgg)
    (h : alookup n (compute_effective_persons lines) = some e) :
    e.ownership = e.voting := by
  unfold compute_effective_persons at h
  rw [alookup_map_val] at h
  rcases Option.map_eq_some'.mp h with ⟨e0, h0, he⟩
  have h1 := aggFold_inv lines ⟨[], none, []⟩
    (by intro n2 e2 hh; rw [alookup_nil] at hh; cases hh) n e0 h0
  rw [← he]
  simp [clampEntry, h1]

/-- C10 witness: a single person line parsed from text yields an aggregate
with equal ownership and voting fractions. -/
theorem C10_ownership_eq_voting_witness :
    alookup ("Jan".data) (compute_effective_persons [⟨0, [], ("Jan — 50 %".data), none⟩]) =
      some c10entry ∧ c10entry.ownership = c10entry.voting :=
  ⟨by with_unfolding_all rfl,
   C10_ownership_eq_voting [⟨0, [], ("Jan — 50 %".data), none⟩] ("Jan".data) c10entry
     (by with_unfolding_all rfl)⟩

/-- C4: (a) every fraction in the aggregator's output lies in `[0, 1]` — the
clamp happens once, after summation; (b) a person contributing `c1` and `c2`
on two independent branches accumulates additively and ends at exactly
`min 1 (c1 + c2)` (both ownership and voting) — the partial terms are never
clamped individually. -/
theorem C4_additive_then_clamp :
    (∀ (lines : List NodeLine) (n : Str) (e : PersonAgg),
       alookup n (compute_effective_persons lines) = some e →
       0 ≤ e.ownership ∧ e.ownership ≤ 1 ∧ 0 ≤ e.voting ∧ e.voting ≤ 1) ∧
    (∀ c1 c2 : ℚ, 0 ≤ c1 → 0 ≤ c2 →
       (alookup ("Petr Novák".data) (compute_effective_persons (twoBranchLines c1 c2))).map
           PersonAgg.ownership = some (min 1 (c1 + c2)) ∧
       (alookup ("Petr Novák".data) (compute_effective_persons (twoBranchLines c1 c2))).map
           PersonAgg.voting = some (min 1 (c1 + c2))) := by
  constructor
  · intro lines n e h
    unfold compute_effective_persons at h
    rw [alookup_map_val] at h
    rcases Option.map_eq_some'.mp h with ⟨e0, _, he⟩
    rw [← he]
    exact ⟨clamp01_nonneg _, clamp01_le_one _, clamp01_nonneg _, clamp01_le_one _⟩
  · intro c1 c2 h1 h2
    have hsum : (0 : ℚ) + c1 * 100 / 100 + c2 * 100 / 100 = c1 + c2 := by ring
    have hmin : max 0 (min 1 (c1 + c2)) = min 1 (c1 + c2) :=
      max_eq_right (le_min zero_le_one (add_nonneg h1 h2))
    have hown : (alookup ("Petr Novák".data)
        (compute_effective_persons (twoBranchLines c1 c2))).map PersonAgg.ownership =
        some (clamp01 ((0 : ℚ) + c1 * 100 / 100 + c2 * 100 / 100)) := by
      with_unfolding_all rfl
    have hvot : (alookup ("Petr Novák".data)
        (compute_effective_persons (twoBranchLines c1 c2))).map PersonAgg.voting =
        some (clamp01 ((0 : ℚ) + c1 * 100 / 100 + c2 * 100 / 100)) := by
      with_unfolding_all rfl
    rw [hown, hvot, clamp01_eq, hsum, hmin]
    exact ⟨rfl, rfl⟩

/-- C4 witness: contributions `7/10` and `6/10` sum to `13/10` and are
clamped once, to `1` — had each term been clamped individually the result
would be the same formula `min 1 (c1 + c2)` evaluated here concretely. -/
theorem C4_additive_then_clamp_witness :
    (0 : ℚ) ≤ 7 / 10 ∧ (0 : ℚ) ≤ 6 / 10 ∧
    (alookup ("Petr Novák".data)
        (compute_effective_persons (twoBranchLines (7 / 10) (6 / 10)))).map
      PersonAgg.ownership = some (min 1 (7 / 10 + 6 / 10)) :=
  ⟨by norm_num, by norm_num,
   (C4_additive_then_clamp.2 (7 / 10) (6 / 10) (by norm_num) (by norm_num)).1⟩

theorem classify_block_total (fp : List (Str × FinalPersonVals)) (tp : ℚ)
    (bm : List Str) (bn : Str) :
    (classify fp tp bm bn).block_total = blockTotal fp bm := by
  simp only [classify]
  split <;> rfl

theorem coalition_fold_pres (fp : List (Str × FinalPersonVals)) (R : Str) (n : Str)
    (vals : FinalPersonVals) (hfp : alookup n fp = some vals) :
    ∀ (l : List Str) (acc : List (Str × FinalPersonVals) × List (Str × List Str)),
      alookup n acc.1 = some vals → R ∈ (alookup n acc.2).getD [] →
      alookup n ((l.foldl (coalitionStep fp R) acc).1) = some vals ∧
      R ∈ (alookup n ((l.foldl (coalitionStep fp R) acc).2)).getD [] := by
  intro l
  induction l with
  | nil => intro acc h1 h2; exact ⟨h1, h2⟩
  | cons m rest ih =>
    intro acc h1 h2
    apply ih
    · unfold coalitionStep
      cases hm : alookup m fp with
      | none => exact h1
      | some v =>
        simp only
        rw [alookup_upsert]
        by_cases hnm : n = m
        · subst hnm
          rw [hfp] at hm
          rw [if_pos rfl, Option.some.inj hm]
        · rw [if_neg hnm]; exact h1
    · unfold coalitionStep
      cases hm : alookup m fp with
      | none => exact h2
      | some v =>
        simp only
        rw [alookup_addReason]
        by_cases hnm : n = m
        · subst hnm
          simp only [if_pos rfl, Option.getD_some]
          exact List.mem_append_right _ (by simp)
        · rw [if_neg hnm]; exact h2

theorem coalition_fold_mem (fp : List (Str × FinalPersonVals)) (R : Str) (n : Str)
    (vals : FinalPersonVals) (hfp : alookup n fp = some vals) :
    ∀ (l : List Str) (acc : List (Str × FinalPersonVals) × List (Str × List Str)),
      n ∈ l →
      alookup n ((l.foldl (coalitionStep fp R) acc).1) = some vals ∧
      R ∈ (alookup n ((l.foldl (coalitionStep fp R) acc).2)).getD [] := by
  intro l
  induction l with
  | nil => intro acc h; cases h
  | cons m rest ih =>
    intro acc hmem
    rcases List.mem_cons.mp hmem with h | h
    · subst h
      apply coalition_fold_pres fp R n vals hfp rest
      · unfold coalitionStep
        rw [hfp]
        simp only
        rw [alookup_upsert, if_pos rfl]
      · unfold coalitionStep
        rw [hfp]
        simp only
        rw [alookup_addReason]
        simp only [if_pos rfl, Option.getD_some]
        exact List.mem_append_right _ (by simp)
    · exact ih (coalitionStep fp R acc m) h

/-- C6: if the coalition's summed voting fraction strictly exceeds the
threshold, every named member present in the persons map lands in the UBO
set — regardless of that member's individual fractions — and receives the
coalition-specific reason string. -/
theorem C6_coalition (fp : List (Str × FinalPersonVals)) (threshold_pct : ℚ)
    (bm : List Str) (bn : Str) (n : Str) (vals : FinalPersonVals)
    (hmem : n ∈ bm) (hfp : alookup n fp = some vals)
    (hbt : (classify fp threshold_pct bm bn).block_total > threshold_pct / 100) :
    alookup n (classify fp threshold_pct bm bn).ubo = some vals ∧
    reasonCoalition bn (classify fp threshold_pct bm bn).block_total threshold_pct ∈
      ((alookup n (classify fp threshold_pct bm bn).reasons).getD []) := by
  rw [classify_block_total] at hbt ⊢
  have hne : bm ≠ [] := List.ne_nil_of_mem hmem
  have hcond : (!bm.isEmpty) = true ∧ blockTotal fp bm > threshold_pct / 100 := by
    refine ⟨?_, hbt⟩
    cases bm with
    | nil => exact absurd rfl hne
    | cons a l => rfl
  have hm := coalition_fold_mem fp (reasonCoalition bn (blockTotal fp bm) threshold_pct) n vals
    hfp bm (fp.foldl (classifyPerson (threshold_pct / 100) threshold_pct) ([], [])) hmem
  simp only [classify, hcond, if_pos, and_true]
  constructor
  · simpa using hm.1
  · simpa using hm.2

/-- C6 witness: members `A` (voting 0.10) and `B` (voting 0.20) with
threshold 25 % — the combined 0.30 qualifies, and both members end up in the
UBO set with the coalition reason, although neither individually exceeds
0.25. -/
theorem C6_coalition_witness :
    (alookup ("A".data) (classify c6persons 25 [("A".data), ("B".data)] ("Blok 1".data)).ubo =
        some ⟨0, 1 / 10, false, false, false⟩ ∧
      reasonCoalition ("Blok 1".data)
          (classify c6persons 25 [("A".data), ("B".data)] ("Blok 1".data)).block_total 25 ∈
        ((alookup ("A".data)
            (classify c6persons 25 [("A".data), ("B".data)] ("Blok 1".data)).reasons).getD [])) ∧
    (alookup ("B".data) (classify c6persons 25 [("A".data), ("B".data)] ("Blok 1".data)).ubo =
        some ⟨0, 2 / 10, false, false, false⟩ ∧
      reasonCoalition ("Blok 1".data)
          (classify c6persons 25 [("A".data), ("B".data)] ("Blok 1".data)).block_total 25 ∈
        ((alookup ("B".data)
            (classify c6persons 25 [("A".data), ("B".data)] ("Blok 1".data)).reasons).getD [])) :=
  ⟨C6_coalition c6persons 25 [("A".data), ("B".data)] ("Blok 1".data) ("A".data)
      ⟨0, 1 / 10, false, false, false⟩ (by decide) (by with_unfolding_all rfl)
      (by rw [classify_block_total]; with_unfolding_all decide),
   C6_coalition c6persons 25 [("A".data), ("B".data)] ("Blok 1".data) ("B".data)
      ⟨0, 2 / 10, false, false, false⟩ (by decide) (by with_unfolding_all rfl)
      (by rw [classify_block_total]; with_unfolding_all decide)⟩

/-- C1 counterexample: a person annotated `efektivně 40 %` under a chain
with multiplier 0.60 is stored with effective percentage 24 (= 0.24), not 40
(= 0.40): the generic-percentage tier of `parse_pct_from_text` matches the
`40 %` inside the annotation, so it is treated as a local share and
multiplied by the parent multiplier; the effective-only branch never runs. -/
theorem C1_counterexample :
    (resolve_tree_online c1client ("11111111".data) 25 []).map
        (fun r => r.1.map NodeLine.effective_pct) =
      .ok [some 100, none, some 60, none, none, some 24] ∧
    ((24 : ℚ) ≠ 40) := by
  constructor
  · with_unfolding_all rfl
  · with_unfolding_all decide

/-- C1 amended: for an owner record with no explicit numeric share whose raw
text carries an `efektivně NN %` annotation, the share parser necessarily
also extracts a local share `l` from that same text (the generic-percentage
tier matches `NN %`), and the local share wins: (a) a person owner's emitted
line stores `parentMultiplier · l · 100`, not the annotation value; (b) a
company owner's line stores the same, and the multiplier passed to its
subtree is `parentMultiplier · l`, not the annotation value (observed here
through a probing walk callback that records the multiplier it receives). -/
theorem C1_amended (pm l e : ℚ) (depth : ℕ) (label nm raw i : Str)
    (wCz : Str → ℕ → ℚ → Except GwError WalkOut)
    (wF : Str → Option Str → ℕ → ℚ → Except GwError WalkOut)
    (heff : parse_effective_from_text raw = some e)
    (hloc : parse_pct_from_text raw = some l)
    (hne : i ≠ []) :
    emitOwner wCz wF label depth pm ⟨("PERSON".data), nm, none, none, raw, label⟩ =
      .ok ([⟨depth + 2, label,
        nm ++ (" — ".data) ++ fmt2 (l * 100) ++ ("% (efektivně ".data) ++
          fmt2 (pm * l * 100) ++ ("%)".data),
        some (pm * l * 100)⟩], []) ∧
    emitOwner (fun _ d m => .ok ([⟨d, [], [], some m⟩], [])) wF label depth pm
        ⟨("COMPANY".data), nm, some i, none, raw, label⟩ =
      .ok ([⟨depth + 2, label,
        nm ++ (" — ".data) ++ (fmt2 (l * 100) ++ ("%".data)) ++ (" (IČO ".data) ++ i ++ (")".data),
        some (pm * l * 100)⟩,
        ⟨depth + 3, [], [], some (pm * l)⟩], []) := by
  have hraw : raw ≠ [] := parse_pct_ne_nil hloc
  have hrawE : raw.isEmpty = false := by
    cases raw with
    | nil => exact absurd rfl hraw
    | cons c cs => rfl
  have hiE : i.isEmpty = false := by
    cases i with
    | nil => exact absurd rfl hne
    | cons c cs => rfl
  constructor
  · have hne1 : ¬(upperStr ("PERSON".data) = ("COMPANY".data) ∧ optStrTruthy (none : Option Str) = true) := by
      decide
    have hne2 : ¬(upperStr ("PERSON".data) = ("FOREIGN".data) ∧ optStrTruthy (none : Option Str) = true) := by
      decide
    simp [emitOwner, hloc, heff, hrawE, hne1, hne2]
  · have hcond : upperStr ("COMPANY".data) = ("COMPANY".data) ∧ optStrTruthy (some i) = true := by
      refine ⟨by decide, ?_⟩
      simp [optStrTruthy, hiE]
    simp [emitOwner, hloc, heff, hrawE, hcond]

/-- C1 amended, witness: the concrete fixture values — annotation
`efektivně 40 %`, parent multiplier `3/5` — give a stored effective
percentage `(3/5)·(2/5)·100 = 24` for the person and a subtree multiplier
`(3/5)·(2/5) = 6/25` for the company. -/
theorem C1_amended_witness :
    parse_effective_from_text ("efektivně 40 %".data) = some (2 / 5) ∧
    parse_pct_from_text ("efektivně 40 %".data) = some (2 / 5) ∧
    emitOwner (fun _ _ _ => .ok ([], [])) (fun _ _ _ _ => .ok ([], []))
        ("Společníci".data) 0 (3 / 5)
        ⟨("PERSON".data), ("Jana Malá".data), none, none, ("efektivně 40 %".data), ("Společníci".data)⟩ =
      .ok ([⟨2, ("Společníci".data),
        ("Jana Malá".data) ++ (" — ".data) ++ fmt2 ((2 / 5) * 100) ++ ("% (efektivně ".data) ++
          fmt2 ((3 / 5) * (2 / 5) * 100) ++ ("%)".data),
        some ((3 / 5) * (2 / 5) * 100)⟩], []) :=
  ⟨by with_unfolding_all decide, by with_unfolding_all decide,
   (C1_amended (3 / 5) (2 / 5) (2 / 5) 0 ("Společníci".data) ("Jana Malá".data)
      ("efektivně 40 %".data) ("X1".data)
      (fun _ _ _ => .ok ([], [])) (fun _ _ _ _ => .ok ([], []))
      (by with_unfolding_all decide) (by with_unfolding_all decide) (by decide)).1⟩

theorem c3_resolve (f1 f2 : ℚ) :
    resolve_tree_online (c3client f1 f2) ("11111111".data) 25 [] = .ok (c3lines f1 f2, []) := by
  with_unfolding_all rfl

theorem fmt2_no_newline (x : ℚ) : ((fmt2 x).all fun d => d ≠ '\n') = true := by
  rw [List.all_eq_true]
  intro c hc
  rcases fmt2_chars hc with h | h | h
  · simp only [decide_eq_true_eq]
    intro he; rw [he] at h; exact absurd h (by decide)
  · subst h; decide
  · subst h; decide

theorem fmt2_no_paren {x : ℚ} {c : Char} (hc : c ∈ fmt2 x) : c ≠ '(' := by
  rcases fmt2_chars hc with h | h | h
  · intro he; rw [he] at h; exact absurd h (by decide)
  · subst h; decide
  · subst h; decide

theorem icoAt_cons_ne {c : Char} (l : Str) (h : ¬ c = '(') : icoAt (c :: l) = false := by
  simp [icoAt, h]

theorem icoSearch_no_paren {x : Str} (hx : ∀ c ∈ x, c ≠ '(') :
    ∀ r : Str, icoSearch (x ++ r) = icoSearch r := by
  induction x with
  | nil => intro r; rfl
  | cons c cs ih =>
    intro r
    have hc : ¬ c = '(' := hx c (List.mem_cons_self c cs)
    simp only [List.cons_append, icoSearch, icoAt_cons_ne _ hc, Bool.false_or]
    exact ih (fun d hd => hx d (List.mem_cons_of_mem c hd)) r

theorem hdrRevTrue (R : Str) :
    headerRev ((")".data) ++ (("22222222".data) ++ ((" OČI( ".data) ++ (("%".data) ++ R)))) =
      ((R.all fun d => d ≠ '\n') || false) := rfl

theorem hdrRevFalse (R : Str) : headerRev ((")%".data) ++ R) = false := rfl

theorem icoSkipName (r : Str) : icoSearch (("Petr Novák".data) ++ r) = icoSearch r := rfl

theorem icoSkipDash (r : Str) : icoSearch ((" — ".data) ++ r) = icoSearch r := rfl

theorem icoSkipEff (r : Str) : icoSearch (("% (efektivně ".data) ++ r) = icoSearch r := rfl

theorem icoEndPct : icoSearch ("%)".data) = false := rfl

theorem dashPN (r : Str) :
    dashSplitFirst (("Petr Novák".data) ++ ((" — ".data) ++ r)) = ("Petr Novák".data) := rfl

theorem c3t2_reverse (f1 : ℚ) :
    (c3t2 f1).reverse =
      (")".data) ++ (("22222222".data) ++ ((" OČI( ".data) ++ (("%".data) ++
        ((fmt2 (f1 * 100 / 100 * 100)).reverse ++ ((" — ".data) ++ (".o.r.s diM".data)))))) := by
  have e1 : ((")".data) : Str).reverse = (")".data) := by decide
  have e2 : (("22222222".data) : Str).reverse = ("22222222".data) := by decide
  have e3 : ((" (IČO ".data) : Str).reverse = (" OČI( ".data) := by decide
  have e4 : (("%".data) : Str).reverse = ("%".data) := by decide
  have e5 : ((" — ".data) : Str).reverse = (" — ".data) := by decide
  have e6 : (("Mid s.r.o.".data) : Str).reverse = (".o.r.s diM".data) := by decide
  simp only [c3t2, List.reverse_append, List.append_assoc, e1, e2, e3, e4, e5, e6]

theorem c3t2_header (f1 : ℚ) : isCompanyHeader (c3t2 f1) = true := by
  rw [isCompanyHeader, c3t2_reverse, hdrRevTrue]
  simp only [List.all_append, List.all_reverse, Bool.or_false, fmt2_no_newline, Bool.true_and]
  decide

theorem c3t2_ne_nil (f1 : ℚ) : c3t2 f1 ≠ [] := fun h => absurd h (List.cons_ne_nil _ _)

theorem c3t5_reverse (f1 f2 : ℚ) :
    (c3t5 f1 f2).reverse =
      (")%".data) ++ ((fmt2 (1 * (f1 * 100 / 100) * (f2 * 100 / 100) * 100)).reverse ++
        ((" ěnvitkefe( %".data) ++ ((fmt2 (f2 * 100 / 100 * 100)).reverse ++
          ((" — ".data) ++ ("kávoN rteP".data))))) := by
  have e1 : (("%)".data) : Str).reverse = (")%".data) := by decide
  have e2 : (("% (efektivně ".data) : Str).reverse = (" ěnvitkefe( %".data) := by decide
  have e3 : ((" — ".data) : Str).reverse = (" — ".data) := by decide
  have e4 : (("Petr Novák".data) : Str).reverse = ("kávoN rteP".data) := by decide
  simp only [c3t5, List.reverse_append, List.append_assoc, e1, e2, e3, e4]

theorem c3t5_not_header (f1 f2 : ℚ) : isCompanyHeader (c3t5 f1 f2) = false := by
  rw [isCompanyHeader, c3t5_reverse, hdrRevFalse]

theorem c3t5_ne_nil (f1 f2 : ℚ) : c3t5 f1 f2 ≠ [] := fun h => absurd h (List.cons_ne_nil _ _)

theorem c3t5_getLast (f1 f2 : ℚ) : (c3t5 f1 f2).getLast? = some ')' := by
  have e1 : (("%)".data) : Str).getLast? = some ')' := by decide
  simp only [c3t5, List.getLast?_append, e1]
  rfl

theorem c3t5_no_ico (f1 f2 : ℚ) : icoSearch (c3t5 f1 f2) = false := by
  simp only [c3t5, List.append_assoc]
  rw [icoSkipName, icoSkipDash,
    icoSearch_no_paren (fun c hc => fmt2_no_paren hc),
    icoSkipEff,
    icoSearch_no_paren (fun c hc => fmt2_no_paren hc),
    icoEndPct]

theorem c3t5_name (f1 f2 : ℚ) : trimWs (dashSplitFirst (c3t5 f1 f2)) = ("Petr Novák".data) := by
  simp only [c3t5, List.append_assoc]
  rw [dashPN]
  decide

/-- Evaluation of the aggregator fold over the resolver's two-level line
sequence: the leaf person's totals come straight from the pre-computed
effective percentage of the person line, divided by 100 (both totals receive
the same contribution). -/
theorem c3_fold (f1 f2 : ℚ) :
    List.foldl aggStep ⟨[], none, []⟩ (c3lines f1 f2) =
      ⟨[(3, 1), (2, 1), (0, 1)], none,
        [(("Petr Novák".data),
          ⟨0 + (1 * (f1 * 100 / 100) * (f2 * 100 / 100) * 100) / 100,
           0 + (1 * (f1 * 100 / 100) * (f2 * 100 / 100) * 100) / 100,
           [⟨3, 1, none, some ((1 * (f1 * 100 / 100) * (f2 * 100 / 100) * 100) / 100),
             ("node_eff(person)".data), c3t5 f1 f2⟩]⟩)]⟩ := by
  have hs3 : aggStep ⟨[(0, 1)], none, []⟩
      ⟨2, ("Společníci".data), c3t2 f1, some (1 * (f1 * 100 / 100) * 100)⟩ =
      ⟨[(2, 1), (0, 1)], none, []⟩ := by
    simp only [aggStep, c3t2_ne_nil f1, c3t2_header f1]
    rfl
  have hlast5 : ¬ ((c3t5 f1 f2).getLast? = some ':') := by
    rw [c3t5_getLast]; decide
  have hs6 : aggStep ⟨[(3, 1), (2, 1), (0, 1)], none, []⟩
      ⟨5, ("Společníci".data), c3t5 f1 f2,
        some (1 * (f1 * 100 / 100) * (f2 * 100 / 100) * 100)⟩ =
      ⟨[(3, 1), (2, 1), (0, 1)], none,
        [(("Petr Novák".data),
          ⟨0 + (1 * (f1 * 100 / 100) * (f2 * 100 / 100) * 100) / 100,
           0 + (1 * (f1 * 100 / 100) * (f2 * 100 / 100) * 100) / 100,
           [⟨3, 1, none, some ((1 * (f1 * 100 / 100) * (f2 * 100 / 100) * 100) / 100),
             ("node_eff(person)".data), c3t5 f1 f2⟩]⟩)]⟩ := by
    simp only [aggStep, c3t5_ne_nil f1 f2, c3t5_not_header f1 f2, hlast5, c3t5_no_ico f1 f2,
      c3t5_name f1 f2]
    rfl
  show List.foldl aggStep ⟨[], none, []⟩
      (⟨0, [], ("Root s.r.o. (IČO 11111111)".data), some (1 * 100)⟩ ::
       ⟨1, ("Společníci".data), ("Společníci:".data), none⟩ ::
       ⟨2, ("Společníci".data), c3t2 f1, some (1 * (f1 * 100 / 100) * 100)⟩ ::
       ⟨3, [], ("Mid s.r.o. (IČO 22222222)".data), none⟩ ::
       ⟨4, ("Společníci".data), ("Společníci:".data), none⟩ ::
       [⟨5, ("Společníci".data), c3t5 f1 f2,
          some (1 * (f1 * 100 / 100) * (f2 * 100 / 100) * 100)⟩]) = _
  rw [List.foldl_cons, show aggStep ⟨[], none, []⟩
      ⟨0, [], ("Root s.r.o. (IČO 11111111)".data), some (1 * 100)⟩ = ⟨[(0, 1)], none, []⟩ from rfl]
  rw [List.foldl_cons, show aggStep ⟨[(0, 1)], none, []⟩
      ⟨1, ("Společníci".data), ("Společníci:".data), none⟩ = ⟨[(0, 1)], none, []⟩ from rfl]
  rw [List.foldl_cons, hs3]
  rw [List.foldl_cons, show aggStep ⟨[(2, 1), (0, 1)], none, []⟩
      ⟨3, [], ("Mid s.r.o. (IČO 22222222)".data), none⟩ = ⟨[(3, 1), (2, 1), (0, 1)], none, []⟩ from rfl]
  rw [List.foldl_cons, show aggStep ⟨[(3, 1), (2, 1), (0, 1)], none, []⟩
      ⟨4, ("Společníci".data), ("Společníci:".data), none⟩ = ⟨[(3, 1), (2, 1), (0, 1)], none, []⟩ from rfl]
  rw [List.foldl_cons, hs6, List.foldl_nil]

/-- C3: for the two-level chain (intermediate company holding `f1` of the
root, leaf person holding `f2` of the intermediate), the resolver's
depth-tagged line sequence carries the effective percentages `f1·100` (the
company line) and `f1·f2·100` (the person line), and the aggregator
reconstructs from that sequence a per-person effective ownership of exactly
`f1·f2` for the leaf person. -/
theorem C3_two_level_chain (f1 f2 : ℚ)
    (h1a : 0 ≤ f1) (h1b : f1 ≤ 1) (h2a : 0 ≤ f2) (h2b : f2 ≤ 1) :
    (resolve_tree_online (c3client f1 f2) ("11111111".data) 25 []).map
        (fun r => r.1.map NodeLine.effective_pct) =
      .ok [some 100, none, some (f1 * 100), none, none, some (f1 * f2 * 100)] ∧
    (resolve_tree_online (c3client f1 f2) ("11111111".data) 25 []).map
        (fun r => (compute_effective_persons r.1).map fun kv => (kv.1, kv.2.ownership)) =
      .ok [(("Petr Novák".data), f1 * f2)] := by
  have e1 : (1 : ℚ) * 100 = 100 := by norm_num
  have e2 : 1 * (f1 * 100 / 100) * 100 = f1 * 100 := by ring
  have e3 : 1 * (f1 * 100 / 100) * (f2 * 100 / 100) * 100 = f1 * f2 * 100 := by ring
  constructor
  · rw [c3_resolve]
    simp only [Except.map, c3lines, List.map_cons, List.map_nil]
    rw [e1, e2, e3]
  · rw [c3_resolve]
    simp only [Except.map]
    have hagg : (compute_effective_persons (c3lines f1 f2)).map (fun kv => (kv.1, kv.2.ownership)) =
        [(("Petr Novák".data),
          clamp01 (0 + (1 * (f1 * 100 / 100) * (f2 * 100 / 100) * 100) / 100))] := by
      unfold compute_effective_persons
      rw [c3_fold]
      rfl
    rw [hagg]
    have e4 : (0 : ℚ) + (1 * (f1 * 100 / 100) * (f2 * 100 / 100) * 100) / 100 = f1 * f2 := by
      ring
    rw [e4, clamp01_of_bounds (mul_nonneg h1a h2a) (mul_le_one₀ h1b h2a h2b)]

/-- C3 witness: `f1 = 3/5`, `f2 = 1/2` — the leaf person's aggregated
effective ownership is `3/5 · 1/2 = 3/10`. -/
theorem C3_two_level_chain_witness :
    (0 : ℚ) ≤ 3 / 5 ∧ (3 : ℚ) / 5 ≤ 1 ∧ (0 : ℚ) ≤ 1 / 2 ∧ (1 : ℚ) / 2 ≤ 1 ∧
    (resolve_tree_online (c3client (3 / 5) (1 / 2)) ("11111111".data) 25 []).map
        (fun r => (compute_effective_persons r.1).map fun kv => (kv.1, kv.2.ownership)) =
      .ok [(("Petr Novák".data), 3 / 5 * (1 / 2))] :=
  ⟨by norm_num, by norm_num, by norm_num, by norm_num,
   (C3_two_level_chain (3 / 5) (1 / 2) (by norm_num) (by norm_num) (by norm_num) (by norm_num)).2⟩

end UBO
